import Mathlib

/-!
# Verification of the go-avebi playback synchronization engine

Shallow embedding of the playback controllers of the `erparts/go-avebi`
repository (video-only, audio-driven, and live-stream controllers), together
with proofs checking the natural-language specification against the code.

Modelling conventions:
* `time.Duration` (int64 nanoseconds) and `time.Time` instants are modelled as
  `Int`; the concrete claims use values far below the int64 overflow range, so
  plain integer arithmetic is faithful.
* `*reisen.VideoFrame` is modelled by its presentation offset (`Int`); the
  pixel payload is irrelevant to every claim.  `frame.PresentationOffset()`
  is modelled as total (its Go error can only arise from a broken stream
  time base, which none of the claims concerns).
* The reisen decoder/demuxer collaborator is modelled as a deterministic
  packet/frame sequence with a read cursor.  Operations on closed handles
  fail with an error (per the collaborator contract of the spec, using a
  handle after close/free is never legal), and succeed otherwise.
* Go methods that mutate the receiver and return values are modelled as
  functions `State → result × State`; errors are `Option goError` in result
  position, mirroring Go's `(..., error)` returns, so partially-mutated
  states on error paths are preserved faithfully.
-/

/-- Playback state, from `playback_state.go`: `Stopped`, `Playing`, `Paused`. -/
inductive PlaybackState where
  | Stopped
  | Playing
  | Paused
deriving DecidableEq, Repr

/-- Stop modes, from `controller_interface.go`: `stopModeManual` and
`stopModeEndOfVideo` (a `bool` in the source, an enumeration here). -/
inductive stopMode where
  | manual
  | endOfVideo
deriving DecidableEq, Repr

/-- Errors surfaced by the modelled collaborators and constructors. -/
inductive goError where
  | errNoVideo            -- player.go ErrNoVideo
  | errNilAudioContext    -- player.go ErrNilAudioContext
  | errBadSampleRate      -- player.go ErrBadSampleRate
  | errTooManyChannels    -- player.go ErrTooManyChannels (declared, see claims)
  | errCannotSeekLiveStream -- controller_stream.go "cannot seek in live stream"
  | rewindOnClosedStream  -- reisen: Rewind on a closed stream/media
  | readOnClosedStream    -- reisen: ReadPacket/ReadVideoFrame on closed media
  | closeOnClosedStream   -- reisen: Close on an already-closed stream
  | openAfterFree         -- reisen: OpenDecode after media.Close()
  | loopFuelExhausted     -- modelling artifact: structural fuel ran out (unreachable, see cvfLoop)
deriving DecidableEq, Repr

/-- The reisen media/video-stream collaborator for the video-only controller:
the video frame sequence (presentation offsets, in stream order), a read
cursor, and the open/closed status of the decode context and the stream. -/
structure mediaState where
  frames : List Int
  cursor : Nat
  freed : Bool
  decodeOpened : Bool
  streamOpened : Bool
deriving DecidableEq, Repr

/-- `media.OpenDecode()`: fails after `media.Close()`. -/
def mediaState.openDecode (m : mediaState) : Option goError × mediaState :=
  if m.freed then (some .openAfterFree, m) else (none, { m with decodeOpened := true })

/-- `stream.Open()`. -/
def mediaState.openStream (m : mediaState) : Option goError × mediaState :=
  if m.freed then (some .openAfterFree, m) else (none, { m with streamOpened := true })

/-- `stream.Rewind(pos)`: position the cursor at the first frame whose
presentation offset is at least `pos`; fails on a closed handle. -/
def mediaState.rewind (m : mediaState) (pos : Int) : Option goError × mediaState :=
  if m.decodeOpened ∧ m.streamOpened then
    (none, { m with cursor := m.frames.findIdx (fun o => decide (pos ≤ o)) })
  else (some .rewindOnClosedStream, m)

/-- `stream.Close()`. -/
def mediaState.closeStream (m : mediaState) : Option goError × mediaState :=
  if m.streamOpened then (none, { m with streamOpened := false })
  else (some .closeOnClosedStream, m)

/-- `media.CloseDecode()`. -/
def mediaState.closeDecode (m : mediaState) : Option goError × mediaState :=
  if m.decodeOpened then (none, { m with decodeOpened := false })
  else (some .closeOnClosedStream, m)

/-- `media.Close()` (final cgo release). -/
def mediaState.closeMedia (m : mediaState) : mediaState :=
  { m with freed := true }

/-- `videoOnlyController.internalReadVideoFrame`: read packets until the next
video frame of the controlled stream; returns `none` (with no error) on
stream exhaustion.  Skipping of non-video packets and of found-but-empty
frames is abstracted into the frame sequence itself. -/
def mediaState.readVideoFrame (m : mediaState) : (Option Int × Option goError) × mediaState :=
  if m.decodeOpened ∧ m.streamOpened then
    match m.frames[m.cursor]? with
    | some off => ((some off, none), { m with cursor := m.cursor + 1 })
    | none => ((none, none), m)
  else ((none, some .readOnClosedStream), m)

/-- The video-only controller (`controller_no_audio.go` in the repository,
`src/unnamed/part_005`).  The pkg logger, mutex and static reisen handles are
abstracted; `lastReadFrame` holds the retained frame's presentation offset. -/
structure videoOnlyController where
  media : mediaState
  duration : Int
  frameDuration : Int
  referenceTime : Int
  referencePosition : Int
  looping : Bool
  videoPendingLoop : Bool
  state : PlaybackState
  lastReadFrame : Option Int
deriving DecidableEq, Repr

/-- `newVideoOnlyController`: frame duration from the stream's frame rate,
duration from the stream; starts Stopped with `referenceTime = now`. -/
def newVideoOnlyController (media : mediaState) (frNum frDenom : Int)
    (streamDuration : Int) (now : Int) : videoOnlyController :=
  { media := media
    duration := streamDuration
    frameDuration := (1000000000 * frDenom) / frNum
    referenceTime := now
    referencePosition := 0
    looping := false
    videoPendingLoop := false
    state := .Stopped
    lastReadFrame := none }

/-- `videoOnlyController.noLockStop`: manual stops clear position and the
retained frame; end-of-video stops pin position to the duration and retain
the frame; both rewind and close the stream when not already stopped. -/
def videoOnlyController.noLockStop (c : videoOnlyController) (videoStopMode : stopMode) :
    Option goError × videoOnlyController :=
  let c := { c with videoPendingLoop := false }
  let c := if videoStopMode = .manual then
    { c with referencePosition := 0, lastReadFrame := none } else c
  if c.state = .Stopped then (none, c)
  else
    let c := { c with state := .Stopped, referenceTime := 0 }
    let c := if videoStopMode = .endOfVideo then
      { c with referencePosition := c.duration } else c
    match c.media.rewind 0 with
    | (some e, m') => (some e, { c with media := m' })
    | (none, m') =>
      match m'.closeStream with
      | (some e, m'') => (some e, { c with media := m'' })
      | (none, m'') =>
        let (e, m3) := m''.closeDecode
        (e, { c with media := m3 })

/-- `videoOnlyController.noLockPosition(now)`: clamp clock skew, project the
position while Playing, handle looping wraparound and natural end-of-video. -/
def videoOnlyController.noLockPosition (c : videoOnlyController) (now : Int) :
    (Int × Bool × Option goError) × videoOnlyController :=
  let now := if now < c.referenceTime then c.referenceTime else now
  if c.state = .Playing then
    let position := c.referencePosition + (now - c.referenceTime)
    if position < c.duration then ((position, false, none), c)
    else if c.looping then
      match c.media.rewind 0 with
      | (some e, m') => ((position, false, some e), { c with media := m' })
      | (none, m') =>
        let c' := { c with media := m', referenceTime := now, videoPendingLoop := true,
                           referencePosition := position - c.duration }
        ((c'.referencePosition, false, none), c')
    else
      let (e, c') := c.noLockStop .endOfVideo
      let c'' := { c' with referencePosition := c'.duration }
      ((c''.referencePosition, true, e), c'')
  else ((c.referencePosition, false, none), c)

/-- `videoOnlyController.Play(now)`. -/
def videoOnlyController.Play (c : videoOnlyController) (now : Int) :
    Option goError × videoOnlyController :=
  if c.state ≠ .Playing then
    let step : Option goError × videoOnlyController :=
      if c.state = .Stopped then
        let c := { c with lastReadFrame := none, referencePosition := 0 }
        match c.media.openDecode with
        | (some e, m') => (some e, { c with media := m' })
        | (none, m') =>
          match m'.openStream with
          | (some e, m'') => (some e, { c with media := m'' })
          | (none, m'') => (none, { c with media := m'' })
      else (none, c)
    match step with
    | (some e, c') => (some e, c')
    | (none, c') => (none, { c' with referenceTime := now, state := .Playing })
  else (none, c)

/-- `videoOnlyController.Pause(now)`. -/
def videoOnlyController.Pause (c : videoOnlyController) (now : Int) :
    Option goError × videoOnlyController :=
  if c.state ≠ .Playing then (none, c)
  else
    match c.noLockPosition now with
    | ((_, _, some e), c') => (some e, c')
    | ((position, ended, none), c') =>
      if ended then (none, c')
      else (none, { c' with state := .Paused, referenceTime := now,
                            referencePosition := position })

/-- `videoOnlyController.Stop()`. -/
def videoOnlyController.Stop (c : videoOnlyController) : Option goError × videoOnlyController :=
  c.noLockStop .manual

/-- `videoOnlyController.Close()`. -/
def videoOnlyController.Close (c : videoOnlyController) : Option goError × videoOnlyController :=
  match c.noLockStop .manual with
  | (some e, c') => (some e, c')
  | (none, c') => (none, { c' with media := c'.media.closeMedia })

/-- `videoOnlyController.Position(now)`. -/
def videoOnlyController.Position (c : videoOnlyController) (now : Int) :
    (Int × Option goError) × videoOnlyController :=
  match c.noLockPosition now with
  | ((position, _, e), c') => ((position, e), c')

/-- `videoOnlyController.State(now)` (calls `noLockPosition` for its side
effects; an invalid state stands in for the error return). -/
def videoOnlyController.StateQuery (c : videoOnlyController) (now : Int) :
    (Option PlaybackState × Option goError) × videoOnlyController :=
  match c.noLockPosition now with
  | ((_, _, some e), c') => ((none, some e), c')
  | ((_, _, none), c') => ((some c'.state, none), c')

/-- `videoOnlyController.Seek(position)` at instant `now`: positions at or
past the duration trigger a *manual* stop; in-range positions are clamped at
0, the stream is rewound, one frame is decoded synchronously and the clock
is rebased to `(position, now)`. -/
def videoOnlyController.Seek (c : videoOnlyController) (position now : Int) :
    (Option Int × Option goError) × videoOnlyController :=
  if c.duration ≤ position then
    let (e, c') := c.noLockStop .manual
    ((none, e), c')
  else
    let position := max position 0
    match c.media.rewind position with
    | (some e, m') => ((none, some e), { c with media := m' })
    | (none, m') =>
      match m'.readVideoFrame with
      | ((f, some e), m'') => ((f, some e), { c with media := m'', lastReadFrame := f })
      | ((f, none), m'') =>
        ((f, none), { c with media := m'', lastReadFrame := f,
                             referencePosition := position, referenceTime := now })

/-- `videoOnlyController.SetLooping`. -/
def videoOnlyController.SetLooping (c : videoOnlyController) (loop : Bool) : videoOnlyController :=
  { c with looping := loop }

/-- `videoOnlyController.GetLooping`. -/
def videoOnlyController.GetLooping (c : videoOnlyController) : Bool :=
  c.looping

/-- The frame catch-up loop of `videoOnlyController.CurrentVideoFrame`: read
frames while the held frame is stale relative to the target position or a
loop rewind is pending; handle stream exhaustion by loop rewind or natural
stop.  The Go `for` loop terminates because every iteration either returns
or consumes one decoded frame; the explicit `fuel` argument makes that
measure structural — callers pass `frames.length - cursor + 1`, strictly
more than the frames that can still be decoded, so the fuel-exhausted case
is unreachable. -/
def videoOnlyController.cvfLoop (c : videoOnlyController)
    (now position prevPresOffset presOffset : Int) :
    Nat → (Option Int × Bool × Option goError) × videoOnlyController
  | 0 => ((none, false, some .loopFuelExhausted), c)
  | fuel + 1 =>
    if presOffset + c.frameDuration < position ∨ c.videoPendingLoop then
      let c1 := if c.videoPendingLoop ∧ presOffset < prevPresOffset then
        { c with videoPendingLoop := false } else c
      match c1.media.readVideoFrame with
      | ((some off, none), m') =>
        videoOnlyController.cvfLoop { c1 with media := m', lastReadFrame := some off }
          now position presOffset off fuel
      | ((none, none), m') =>
        if c1.looping then
          match m'.rewind 0 with
          | (some e, m'') => ((none, false, some e), { c1 with media := m'' })
          | (none, m'') =>
            let c2 := { c1 with media := m'', referenceTime := now,
                                 referencePosition := 0, videoPendingLoop := true }
            ((c2.lastReadFrame, false, none), c2)
        else
          match ({ c1 with media := m' }).noLockStop .endOfVideo with
          | (e, c2) => ((c2.lastReadFrame, true, e), c2)
      | ((some _, some e), m') => ((none, false, some e), { c1 with media := m' })
      | ((none, some e), m') => ((none, false, some e), { c1 with media := m' })
    else ((c.lastReadFrame, false, none), c)

/-- `videoOnlyController.CurrentVideoFrame(now)`. -/
def videoOnlyController.CurrentVideoFrame (c : videoOnlyController) (now : Int) :
    (Option Int × Bool × Option goError) × videoOnlyController :=
  if c.state = .Stopped then
    ((c.lastReadFrame, decide (c.referencePosition = c.duration), none), c)
  else
    match c.noLockPosition now with
    | ((_, _, some e), c') => ((none, false, some e), c')
    | ((_, true, none), c') => ((c'.lastReadFrame, true, none), c')
    | ((position, false, none), c') =>
      match c'.lastReadFrame with
      | some off => c'.cvfLoop now position off off (c'.media.frames.length - c'.media.cursor + 1)
      | none => c'.cvfLoop now position 0 0 (c'.media.frames.length - c'.media.cursor + 1)

/-! ## Audio-driven controller (`controller.go`, `src/unnamed/part_004`) -/

/-- A demuxed packet of the interleaved A/V container: a video frame packet
(carrying its presentation offset), an audio frame packet (presentation
offset and PCM payload bytes), or a packet of another stream.  Packets with
mismatching stream indices and found-but-empty frame skips are modelled as
`other`. -/
inductive avPacket where
  | video (offset : Int)
  | audio (offset : Int) (data : List Nat)
  | other
deriving DecidableEq, Repr

/-- The reisen media collaborator for the audio-driven controller. -/
structure avMediaState where
  packets : List avPacket
  cursor : Nat
  freed : Bool
  decodeOpened : Bool
  videoOpened : Bool
  audioOpened : Bool
deriving DecidableEq, Repr

/-- `media.OpenDecode()`. -/
def avMediaState.openDecode (m : avMediaState) : Option goError × avMediaState :=
  if m.freed then (some .openAfterFree, m) else (none, { m with decodeOpened := true })

/-- `video.Open()`. -/
def avMediaState.openVideoStream (m : avMediaState) : Option goError × avMediaState :=
  if m.freed then (some .openAfterFree, m) else (none, { m with videoOpened := true })

/-- `audio.Open()`. -/
def avMediaState.openAudioStream (m : avMediaState) : Option goError × avMediaState :=
  if m.freed then (some .openAfterFree, m) else (none, { m with audioOpened := true })

/-- `video.Rewind(0)`. -/
def avMediaState.rewindVideoStream (m : avMediaState) : Option goError × avMediaState :=
  if m.decodeOpened ∧ m.videoOpened then (none, { m with cursor := 0 })
  else (some .rewindOnClosedStream, m)

/-- `audio.Rewind(0)`. -/
def avMediaState.rewindAudioStream (m : avMediaState) : Option goError × avMediaState :=
  if m.decodeOpened ∧ m.audioOpened then (none, { m with cursor := 0 })
  else (some .rewindOnClosedStream, m)

/-- `video.Close()`. -/
def avMediaState.closeVideoStream (m : avMediaState) : Option goError × avMediaState :=
  if m.videoOpened then (none, { m with videoOpened := false })
  else (some .closeOnClosedStream, m)

/-- `audio.Close()`. -/
def avMediaState.closeAudioStream (m : avMediaState) : Option goError × avMediaState :=
  if m.audioOpened then (none, { m with audioOpened := false })
  else (some .closeOnClosedStream, m)

/-- `media.CloseDecode()`. -/
def avMediaState.closeDecode (m : avMediaState) : Option goError × avMediaState :=
  if m.decodeOpened then (none, { m with decodeOpened := false })
  else (some .closeOnClosedStream, m)

/-- `media.Close()` (final cgo release). -/
def avMediaState.closeMedia (m : avMediaState) : avMediaState :=
  { m with freed := true }

/-- The ebitengine `audio.Player` collaborator: `Position()` reports the
consumed-audio duration of this player instance; volume (a float64) is
omitted, no claim concerns it. -/
structure audioPlayerState where
  pos : Int
  playing : Bool
deriving DecidableEq, Repr

/-- The audio-driven controller `videoWithAudioController`.  The mutex and
the float64 `volume` field are abstracted away (no claim concerns volume);
everything else mirrors the source struct. -/
structure videoWithAudioController where
  media : avMediaState
  duration : Int
  frameDuration : Int
  looping : Bool
  videoPendingLoop : Bool
  muted : Bool
  state : PlaybackState
  lastReadFrame : Option Int
  leftoverVideo : List Int
  audioPlayer : Option audioPlayerState
  leftoverAudio : List Nat
  firstAudioFrameOffsetOnPlay : Int
  needsFirstAudioFrameOffset : Bool
  staticPosition : Int
deriving DecidableEq, Repr

/-- Stream metadata used by the constructors. -/
structure videoStreamInfo where
  frNum : Int
  frDenom : Int
  duration : Int
deriving DecidableEq, Repr

/-- Audio stream metadata: reisen exposes `SampleRate()` and the channel
count of the stream. -/
structure audioStreamInfo where
  sampleRate : Int
  channelCount : Nat
  duration : Int
deriving DecidableEq, Repr

/-- `newVideoWithAudioController`: fails with `ErrNilAudioContext` when no
ebitengine audio context exists, with `ErrBadSampleRate` on a sample-rate
mismatch; the duration is the max of the video and audio stream durations.
(`audioContextSampleRate = none` models `audio.CurrentContext() == nil`.)
The source performs no check whatsoever on `a.channelCount`. -/
def newVideoWithAudioController (audioContextSampleRate : Option Int)
    (v : videoStreamInfo) (a : audioStreamInfo) (media : avMediaState) :
    Except goError videoWithAudioController :=
  match audioContextSampleRate with
  | none => .error .errNilAudioContext
  | some ctxRate =>
    if ctxRate ≠ a.sampleRate then .error .errBadSampleRate
    else
      .ok { media := media
            duration := max v.duration a.duration
            frameDuration := (1000000000 * v.frDenom) / v.frNum
            looping := false
            videoPendingLoop := false
            muted := false
            state := .Stopped
            lastReadFrame := none
            leftoverVideo := []
            audioPlayer := none
            leftoverAudio := []
            firstAudioFrameOffsetOnPlay := 0
            needsFirstAudioFrameOffset := false
            staticPosition := 0 }

/-- The two file-backed controller variants produced by `newPlayer`. -/
inductive playerController where
  | withAudio (c : videoWithAudioController)
  | videoOnly (c : videoOnlyController)
deriving DecidableEq, Repr

/-- `newPlayer` (player.go): requires at least one video stream
(`ErrNoVideo`), uses the audio-driven controller when an audio stream exists
and audio is not ignored, the video-only controller otherwise.  The two
media-handle models are passed separately because the two controller
embeddings model the demuxer at different granularities. -/
def newPlayer (audioContextSampleRate : Option Int)
    (videoStreams : List videoStreamInfo) (audioStreams : List audioStreamInfo)
    (ignoreAudio : Bool) (avMedia : avMediaState) (voMedia : mediaState)
    (now : Int) : Except goError playerController :=
  match videoStreams with
  | [] => .error .errNoVideo
  | v :: _ =>
    match audioStreams with
    | a :: _ =>
      if ignoreAudio then
        .ok (.videoOnly (newVideoOnlyController voMedia v.frNum v.frDenom v.duration now))
      else
        match newVideoWithAudioController audioContextSampleRate v a avMedia with
        | .error e => .error e
        | .ok c => .ok (.withAudio c)
    | [] => .ok (.videoOnly (newVideoOnlyController voMedia v.frNum v.frDenom v.duration now))

/-- `videoWithAudioController.noLockEnsureAudioHalt`: pause, close and drop
the audio player, clear leftover audio, and require a fresh first-audio-frame
offset.  (The modelled player close cannot fail.) -/
def videoWithAudioController.noLockEnsureAudioHalt (c : videoWithAudioController) :
    videoWithAudioController :=
  { c with audioPlayer := none, leftoverAudio := [], needsFirstAudioFrameOffset := true }

/-- `videoWithAudioController.noLockStop`. -/
def videoWithAudioController.noLockStop (c : videoWithAudioController)
    (videoStopMode : stopMode) : Option goError × videoWithAudioController :=
  let c := if videoStopMode = .manual then
    { c.noLockEnsureAudioHalt with firstAudioFrameOffsetOnPlay := 0, staticPosition := 0,
                                   lastReadFrame := none, leftoverVideo := [],
                                   videoPendingLoop := false }
    else c
  if c.state = .Stopped then (none, c)
  else
    let c := { c with state := .Stopped }
    let c := if videoStopMode = .endOfVideo then
      { c.noLockEnsureAudioHalt with firstAudioFrameOffsetOnPlay := 0,
                                     staticPosition := c.duration,
                                     videoPendingLoop := false }
      else c
    match c.media.rewindVideoStream with
    | (some e, m1) => (some e, { c with media := m1 })
    | (none, m1) =>
      match m1.rewindAudioStream with
      | (some e, m2) => (some e, { c with media := m2 })
      | (none, m2) =>
        match m2.closeVideoStream with
        | (some e, m3) => (some e, { c with media := m3 })
        | (none, m3) =>
          match m3.closeAudioStream with
          | (some e, m4) => (some e, { c with media := m4 })
          | (none, m4) =>
            let (e, m5) := m4.closeDecode
            (e, { c with media := m5 })

/-- `videoWithAudioController.noLockPosition`: the audio clock is
authoritative; without a player (or before the first audio frame of the
session) the manually maintained `staticPosition` is reported. -/
def videoWithAudioController.noLockPosition (c : videoWithAudioController) :
    (Int × Bool × Option goError) × videoWithAudioController :=
  match c.audioPlayer with
  | none => ((c.staticPosition, false, none), c)
  | some p =>
    if c.needsFirstAudioFrameOffset then ((c.staticPosition, false, none), c)
    else
      let position := c.firstAudioFrameOffsetOnPlay + p.pos
      if position < c.duration then ((position, false, none), c)
      else
        let (e, c') := c.noLockStop .endOfVideo
        ((c'.duration, true, e), c')

/-- `videoWithAudioController.noLockCreateAudioPlayer` (buffer size and
volume application omitted with the float volume). -/
def videoWithAudioController.noLockCreateAudioPlayer (c : videoWithAudioController) :
    videoWithAudioController :=
  { c with audioPlayer := some { pos := 0, playing := false },
           needsFirstAudioFrameOffset := true }

/-- `videoWithAudioController.Play`. -/
def videoWithAudioController.Play (c : videoWithAudioController) :
    Option goError × videoWithAudioController :=
  if c.state ≠ .Playing then
    let step : Option goError × videoWithAudioController :=
      if c.state = .Stopped then
        match c.media.openDecode with
        | (some e, m1) => (some e, { c with media := m1 })
        | (none, m1) =>
          match m1.openVideoStream with
          | (some e, m2) => (some e, { c with media := m2 })
          | (none, m2) =>
            match m2.openAudioStream with
            | (some e, m3) => (some e, { c with media := m3 })
            | (none, m3) =>
              (none, { c with media := m3, leftoverAudio := [], leftoverVideo := [],
                              lastReadFrame := none, firstAudioFrameOffsetOnPlay := 0 })
      else (none, c)
    match step with
    | (some e, c') => (some e, c')
    | (none, c') =>
      let c'' := if c'.audioPlayer = none then c'.noLockCreateAudioPlayer else c'
      (none, { c'' with state := .Playing,
                        audioPlayer := c''.audioPlayer.map (fun p => { p with playing := true }) })
  else (none, c)

/-- `videoWithAudioController.Pause`. -/
def videoWithAudioController.Pause (c : videoWithAudioController) :
    Option goError × videoWithAudioController :=
  if c.state ≠ .Playing then (none, c)
  else
    match c.noLockPosition with
    | ((_, _, some e), c') => (some e, c')
    | ((position, ended, none), c') =>
      if ended then (none, c')
      else
        let c'' := ({ c' with state := .Paused }).noLockEnsureAudioHalt
        (none, { c'' with firstAudioFrameOffsetOnPlay := position,
                          staticPosition := position })

/-- `videoWithAudioController.Stop`. -/
def videoWithAudioController.Stop (c : videoWithAudioController) :
    Option goError × videoWithAudioController :=
  c.noLockStop .manual

/-- `videoWithAudioController.Close`. -/
def videoWithAudioController.Close (c : videoWithAudioController) :
    Option goError × videoWithAudioController :=
  match c.noLockStop .manual with
  | (some e, c') => (some e, c')
  | (none, c') => (none, { c' with media := c'.media.closeMedia })

/-- `videoWithAudioController.Position`. -/
def videoWithAudioController.Position (c : videoWithAudioController) :
    (Int × Option goError) × videoWithAudioController :=
  match c.noLockPosition with
  | ((position, _, e), c') => ((position, e), c')

/-- `videoWithAudioController.State` (side-effecting query). -/
def videoWithAudioController.StateQuery (c : videoWithAudioController) :
    (Option PlaybackState × Option goError) × videoWithAudioController :=
  match c.noLockPosition with
  | ((_, _, some e), c') => ((none, some e), c')
  | ((_, _, none), c') => ((some c'.state, none), c')

/-- `videoWithAudioController.SetLooping`. -/
def videoWithAudioController.SetLooping (c : videoWithAudioController) (looping : Bool) :
    videoWithAudioController :=
  { c with looping := looping }

/-- `videoWithAudioController.GetLooping`. -/
def videoWithAudioController.GetLooping (c : videoWithAudioController) : Bool :=
  c.looping

/-- `videoWithAudioController.SetMuted`. -/
def videoWithAudioController.SetMuted (c : videoWithAudioController) (muted : Bool) :
    videoWithAudioController :=
  { c with muted := muted }

/-- Environment step: ebitengine consumes queued audio, advancing the
player's `Position()` by `d ≥ 0` between controller calls. -/
def videoWithAudioController.advanceAudioPlayer (c : videoWithAudioController) (d : Int) :
    videoWithAudioController :=
  { c with audioPlayer := c.audioPlayer.map (fun p => { p with pos := p.pos + d }) }

/-- Outcome of a `Seek` on the audio-driven controller. -/
inductive seekOutcome where
  | ok (frame : Option Int) (e : Option goError)
  | panicked (msg : String)
deriving DecidableEq, Repr

/-- `videoWithAudioController.Seek`: the source body is exactly
`panic("unimplemented")`. -/
def videoWithAudioController.Seek (_ : videoWithAudioController) (_ : Int) : seekOutcome :=
  .panicked "unimplemented"

/-- `videoWithAudioController.internalReadAudioFrame`: read packets until the
next audio frame.  Video frames encountered along the way are appended to the
pending video queue; the first audio frame after (re)creation of the player
records `firstAudioFrameOffsetOnPlay`.  Packet exhaustion returns without
error and without touching `leftoverAudio` (the caller detects end of stream
from the empty leftover buffer).  Recursion is by explicit fuel so the loop
stays kernel-computable: every recursive pass advances the cursor by one, so
the `packets.length - cursor + 1` fuel the caller passes can never run out
and the fuel-0 branch is unreachable. -/
def videoWithAudioController.readAudioLoop (c : videoWithAudioController) :
    (fuel : Nat) → videoWithAudioController
  | 0 => c
  | fuel + 1 =>
    match c.media.packets[c.media.cursor]? with
    | none => c
    | some (avPacket.video off) =>
      videoWithAudioController.readAudioLoop
        { c with media := { c.media with cursor := c.media.cursor + 1 },
                 leftoverVideo := c.leftoverVideo ++ [off] } fuel
    | some avPacket.other =>
      videoWithAudioController.readAudioLoop
        { c with media := { c.media with cursor := c.media.cursor + 1 } } fuel
    | some (avPacket.audio off data) =>
      let c := { c with media := { c.media with cursor := c.media.cursor + 1 },
                        leftoverAudio := c.leftoverAudio ++ data }
      if c.needsFirstAudioFrameOffset then
        { c with firstAudioFrameOffsetOnPlay := off, needsFirstAudioFrameOffset := false }
      else c

/-- `internalReadAudioFrame` proper: every `media.ReadPacket`/frame read on a
closed handle errors, checked once up front (openness cannot change during
the packet loop). -/
def videoWithAudioController.internalReadAudioFrame (c : videoWithAudioController) :
    Option goError × videoWithAudioController :=
  if c.media.decodeOpened ∧ c.media.videoOpened ∧ c.media.audioOpened then
    (none, c.readAudioLoop (c.media.packets.length - c.media.cursor + 1))
  else (some .readOnClosedStream, c)

/-- `videoWithAudioController.noLockCopyLeftoverAudio`: copy a prefix of the
leftover audio into the buffer, compacting the remainder (the Go shift-copy
is a list `drop` here). -/
def videoWithAudioController.noLockCopyLeftoverAudio (c : videoWithAudioController)
    (bufferLen : Nat) : Nat × videoWithAudioController :=
  let copiedBytes := min bufferLen c.leftoverAudio.length
  if c.leftoverAudio.length ≤ copiedBytes then (copiedBytes, { c with leftoverAudio := [] })
  else (copiedBytes, { c with leftoverAudio := c.leftoverAudio.drop copiedBytes })

theorem videoWithAudioController.noLockCopyLeftoverAudio_fst (c : videoWithAudioController)
    (bufferLen : Nat) :
    (c.noLockCopyLeftoverAudio bufferLen).1 = min bufferLen c.leftoverAudio.length := by
  simp only [videoWithAudioController.noLockCopyLeftoverAudio]
  split <;> rfl

/-- `videoWithAudioController.noLockRewindForLooping`. -/
def videoWithAudioController.noLockRewindForLooping (c : videoWithAudioController) :
    Option goError × videoWithAudioController :=
  match c.media.rewindAudioStream with
  | (some e, m1) => (some e, { c with media := m1 })
  | (none, m1) =>
    match m1.rewindVideoStream with
    | (some e, m2) => (some e, { c with media := m2 })
    | (none, m2) => (none, { c with media := m2, videoPendingLoop := true })

/-- `videoWithAudioController.noLockHackyAudioReset`: recreate the audio
player and start it (the drift-free audio looping workaround). -/
def videoWithAudioController.noLockHackyAudioReset (c : videoWithAudioController) :
    videoWithAudioController :=
  let c := c.noLockCreateAudioPlayer
  { c with audioPlayer := c.audioPlayer.map (fun p => { p with playing := true }) }

/-- Outcome of the pull-based `Read` callback: a normal fill, an `io.EOF`
signal (with the bytes served before it), a decode error, or a panic under
the strict partial-sample policy. -/
inductive readResult where
  | ok (served : Nat)
  | eof (served : Nat)
  | err (served : Nat) (e : goError)
  | panicked (msg : String)
deriving DecidableEq, Repr

/-- The Go buffer truncation `len(buffer) & (math.MaxInt - 0b11)` (clear the
two low bits of a non-negative int64 length). -/
def goAndMask63 (n : Nat) : Nat := n &&& (2 ^ 63 - 1 - 0b11)

/-- The decode-and-serve loop of `Read`: decode one audio frame at a time,
detect end-of-stream from an empty leftover buffer (dropping the player and
signalling `io.EOF`, after a rewind-and-player-reset when looping, or a
natural stop otherwise), and otherwise copy decoded bytes out.  Recursion is
by explicit fuel so the loop stays kernel-computable: every pass that recurses
copies at least one byte out of `bufferLen`, so the `bufferLen + 1` fuel the
caller passes can never run out and the `loopFuelExhausted` marker is
unreachable. -/
def videoWithAudioController.readLoop (c : videoWithAudioController)
    (bufferLen served : Nat) : (fuel : Nat) → readResult × videoWithAudioController
  | 0 => (.err served .loopFuelExhausted, c)
  | fuel + 1 =>
    if bufferLen = 0 then (.ok served, c)
    else
      match c.internalReadAudioFrame with
      | (some e, c1) => (.err served e, c1)
      | (none, c1) =>
        if c1.leftoverAudio.length = 0 then
          let c2 := { c1 with audioPlayer := none }
          if c2.looping then
            match c2.noLockRewindForLooping with
            | (some e, c3) => (.err served e, c3)
            | (none, c3) => (.eof served, c3.noLockHackyAudioReset)
          else
            match c2.noLockStop .endOfVideo with
            | (some e, c3) => (.err served e, c3)
            | (none, c3) => (.eof served, c3)
        else
          match c1.noLockCopyLeftoverAudio bufferLen with
          | (copied, c2) =>
            videoWithAudioController.readLoop c2 (bufferLen - copied) (served + copied) fuel

/-- `videoWithAudioController.Read(buffer)`, parameterised by the
`panicOnPartialSampleReads` policy constant (`false` in the source): buffers
that are not whole-sample multiples either trip the panic or are truncated
to the previous multiple of 4; then leftover bytes are served first and the
decode loop fills the rest. -/
def videoWithAudioController.Read (panicOnPartialSampleReads : Bool)
    (c : videoWithAudioController) (bufferLen : Nat) :
    readResult × videoWithAudioController :=
  let step : Option Nat :=
    if bufferLen &&& 0b11 ≠ 0 then
      if panicOnPartialSampleReads then none
      else some (goAndMask63 bufferLen)
    else some bufferLen
  match step with
  | none =>
    (.panicked "ebitengine should only provide buffers multiple of 4 for serving L16 audio data", c)
  | some n =>
    let (served0, c1) :=
      if 0 < c.leftoverAudio.length then c.noLockCopyLeftoverAudio n else (0, c)
    if n - served0 = 0 then (.ok served0, c1)
    else c1.readLoop (n - served0) served0 (n - served0 + 1)

/-- The pending-video-queue consuming loop of the audio-driven
`CurrentVideoFrame`: take queued frames while the held frame is stale
relative to the target position or a loop rewind is pending; returns the
new current frame, the pending-loop flag, and the compacted queue. -/
def avConsume (fd position : Int) (pending : Bool) (prevPresOffset presOffset : Int)
    (lastRead : Option Int) : List Int → Option Int × Bool × List Int
  | [] => (lastRead, pending, [])
  | q :: qs =>
    if presOffset + fd < position ∨ pending then
      let pending := if pending ∧ presOffset < prevPresOffset then false else pending
      avConsume fd position pending presOffset q (some q) qs
    else (lastRead, pending, q :: qs)

/-- `videoWithAudioController.CurrentVideoFrame`. -/
def videoWithAudioController.CurrentVideoFrame (c : videoWithAudioController) :
    (Option Int × Bool × Option goError) × videoWithAudioController :=
  if c.state = .Stopped then ((c.lastReadFrame, false, none), c)
  else
    match c.noLockPosition with
    | ((_, _, some e), c') => ((none, false, some e), c')
    | ((_, true, none), c') =>
      match c'.leftoverVideo.getLast? with
      | some f => ((some f, true, none), { c' with lastReadFrame := some f, leftoverVideo := [] })
      | none => ((c'.lastReadFrame, true, none), c')
    | ((position, false, none), c') =>
      let start : Int := match c'.lastReadFrame with
        | some off => off
        | none => 0
      match avConsume c'.frameDuration position c'.videoPendingLoop start start
          c'.lastReadFrame c'.leftoverVideo with
      | (lastRead, pending, rest) =>
        ((lastRead, false, none),
         { c' with lastReadFrame := lastRead, videoPendingLoop := pending,
                   leftoverVideo := rest })

/-! ## Live-stream controller (`controller_stream.go`) -/

/-- The live-stream controller `streamVideoController`.  The two background
goroutines, their channels and the wait group are modelled by the
`sessionActive` flag (decode/schedule steps run between `Play()` from
Stopped and the next `Stop()`); the media handle is a single open flag since
live mode never rewinds. -/
structure streamVideoController where
  state : PlaybackState
  referenceTime : Int
  referencePosition : Int
  lastReadFrame : Option Int
  havePTSBase : Bool
  ptsBase : Int
  wallBase : Int
  jitter : Int
  opened : Bool
  sessionActive : Bool
deriving DecidableEq, Repr

/-- `newStreamVideoController`: Stopped, with the default 15ms jitter. -/
def newStreamVideoController : streamVideoController :=
  { state := .Stopped
    referenceTime := 0
    referencePosition := 0
    lastReadFrame := none
    havePTSBase := false
    ptsBase := 0
    wallBase := 0
    jitter := 15000000
    opened := false
    sessionActive := false }

/-- `streamVideoController.Play(now)`: on Play-from-Stopped reset the live
state, open decode/stream and start the decode and schedule steps. -/
def streamVideoController.Play (c : streamVideoController) (now : Int) :
    Option goError × streamVideoController :=
  if c.state = .Playing then (none, c)
  else
    let c := if c.state = .Stopped then
      { c with lastReadFrame := none, referencePosition := 0, havePTSBase := false,
               opened := true, sessionActive := true }
      else c
    (none, { c with referenceTime := now, state := .Playing })

/-- `streamVideoController.noLockPosition(now)`: clamp clock skew; project
from the reference clock while Playing, frozen position otherwise.  Live
positions have no end-of-stream side effects. -/
def streamVideoController.noLockPosition (c : streamVideoController) (now : Int) :
    (Int × Bool × Option goError) × streamVideoController :=
  let now := if now < c.referenceTime then c.referenceTime else now
  if c.state = .Playing then
    ((c.referencePosition + (now - c.referenceTime), false, none), c)
  else ((c.referencePosition, false, none), c)

/-- `streamVideoController.Pause(now)`. -/
def streamVideoController.Pause (c : streamVideoController) (now : Int) :
    Option goError × streamVideoController :=
  if c.state ≠ .Playing then (none, c)
  else
    match c.noLockPosition now with
    | ((pos, _, _), c') =>
      (none, { c' with state := .Paused, referenceTime := now, referencePosition := pos })

/-- `streamVideoController.noLockStop`: stop the background steps, reset the
reference clock and close the stream (no rewind in live mode). -/
def streamVideoController.noLockStop (c : streamVideoController) :
    Option goError × streamVideoController :=
  let c := { c with sessionActive := false, referencePosition := 0, lastReadFrame := none }
  if c.state = .Stopped then (none, c)
  else (none, { c with state := .Stopped, referenceTime := 0, opened := false })

/-- `streamVideoController.Stop`. -/
def streamVideoController.Stop (c : streamVideoController) :
    Option goError × streamVideoController :=
  c.noLockStop

/-- `streamVideoController.Close`. -/
def streamVideoController.Close (c : streamVideoController) :
    Option goError × streamVideoController :=
  c.noLockStop

/-- `streamVideoController.Position(now)`. -/
def streamVideoController.Position (c : streamVideoController) (now : Int) :
    (Int × Option goError) × streamVideoController :=
  match c.noLockPosition now with
  | ((position, _, e), c') => ((position, e), c')

/-- `streamVideoController.Duration`: always 0 for live content. -/
def streamVideoController.Duration (_ : streamVideoController) : Int := 0

/-- `streamVideoController.Seek`: always the defined unsupported-operation
error, never a panic. -/
def streamVideoController.Seek (c : streamVideoController) (_ : Int) :
    (Option Int × Option goError) × streamVideoController :=
  ((none, some .errCannotSeekLiveStream), c)

/-- `streamVideoController.GetLooping`: always false. -/
def streamVideoController.GetLooping (_ : streamVideoController) : Bool := false

/-- `streamVideoController.SetLooping`: a silent no-op (the interface method
returns nothing, so no error can be reported). -/
def streamVideoController.SetLooping (c : streamVideoController) (_ : Bool) :
    streamVideoController :=
  c

/-- `streamVideoController.CurrentVideoFrame`: the last frame released by
the scheduler, end-reached flag always false, error always nil. -/
def streamVideoController.CurrentVideoFrame (c : streamVideoController) :
    (Option Int × Bool × Option goError) × streamVideoController :=
  ((c.lastReadFrame, false, none), c)

/-- One publication by the schedule step: on the session's first frame record
`(ptsBase, wallBase)`; publish the frame and rebase the logical clock to
`(pts - ptsBase, now)`.  `nowBase` is the instant at which the base pair is
captured, `now` the instant of publication (after the optional wait-until-due,
which only delays and is irrelevant to the published state).  The schedule
step only runs while the session's goroutines are alive. -/
def streamVideoController.publishFrame (c : streamVideoController) (pts nowBase now : Int) :
    streamVideoController :=
  if c.sessionActive then
    let c := if ¬c.havePTSBase then
      { c with ptsBase := pts, wallBase := nowBase, havePTSBase := true }
      else c
    { c with lastReadFrame := some pts, referencePosition := pts - c.ptsBase,
             referenceTime := now }
  else c

/-! ## Concrete states used by the claim instances -/

/-- Frame offsets `0, fd, 2·fd, …` of an `n`-frame constant-cadence stream. -/
def cadenceFrames (n : Nat) (fd : Int) : List Int :=
  (List.range n).map (fun (i : Nat) => (i : Int) * fd)

/-- A fully decoded-to-the-end open 10-frame/40ms/400ms media handle. -/
def demoMedia10 : mediaState :=
  { frames := cadenceFrames 10 40, cursor := 10, freed := false,
    decodeOpened := true, streamOpened := true }

/-- A playing video-only controller near the end of a 400ms file, retaining
the frame at offset 360. -/
def seekDemo : videoOnlyController :=
  { media := demoMedia10, duration := 400, frameDuration := 40,
    referenceTime := 0, referencePosition := 360, looping := false,
    videoPendingLoop := false, state := .Playing, lastReadFrame := some 360 }

/-- A playing video-only controller whose projected position overruns the
duration (used against the plain position formula). -/
def overrunDemo : videoOnlyController :=
  { media := demoMedia10, duration := 400, frameDuration := 40,
    referenceTime := 0, referencePosition := 0, looping := false,
    videoPendingLoop := false, state := .Playing, lastReadFrame := some 360 }

/-- A playing, looping video-only controller holding the early frame at
offset 40 while the clock has already overrun the duration by 280ms. -/
def loopDemo : videoOnlyController :=
  { media := { frames := cadenceFrames 10 40, cursor := 3, freed := false,
               decodeOpened := true, streamOpened := true },
    duration := 400, frameDuration := 40,
    referenceTime := 0, referencePosition := 80, looping := true,
    videoPendingLoop := false, state := .Playing, lastReadFrame := some 40 }

/-- A playing, looping video-only controller holding the late frame at
offset 360 (used for the amended loop-wraparound witness). -/
def loopDemoLate : videoOnlyController :=
  { loopDemo with lastReadFrame := some 360 }

/-- An open interleaved A/V media handle with two audio frames of 4 bytes
each and one interleaved video frame. -/
def avDemoMedia : avMediaState :=
  { packets := [avPacket.audio 0 [1, 2, 3, 4], avPacket.video 0,
                avPacket.audio 20 [5, 6, 7, 8]],
    cursor := 0, freed := false, decodeOpened := true, videoOpened := true,
    audioOpened := true }

/-- A playing audio-driven controller: audio clock at exactly 2000ms, frame
at offset 1920 held, frames 1960/2000/2040 already decoded into the pending
queue. -/
def avBoundaryDemo : videoWithAudioController :=
  { media := avDemoMedia, duration := 10000, frameDuration := 40,
    looping := false, videoPendingLoop := false, muted := false,
    state := .Playing, lastReadFrame := some 1920,
    leftoverVideo := [1960, 2000, 2040],
    audioPlayer := some { pos := 2000, playing := true },
    leftoverAudio := [], firstAudioFrameOffsetOnPlay := 0,
    needsFirstAudioFrameOffset := false, staticPosition := 0 }

/-- The 25fps scenario of the spec: audio clock at 2040ms, no frame held yet,
the first 53 frames (offsets 0‥2080) already decoded into the pending queue. -/
def avCadenceDemo : videoWithAudioController :=
  { avBoundaryDemo with lastReadFrame := none,
                        leftoverVideo := cadenceFrames 53 40,
                        audioPlayer := some { pos := 2040, playing := true } }

/-- An audio-driven controller with 800 leftover PCM bytes buffered. -/
def avReadDemo : videoWithAudioController :=
  { avBoundaryDemo with leftoverAudio := List.replicate 800 0 }

/-- The first queued frame that reaches the catch-up bound of the consume
loop: the first `q` with `position ≤ q + frameDuration`. -/
def firstDueFrame (fd position : Int) (queue : List Int) : Option Int :=
  queue.find? (fun q => decide (position ≤ q + fd))

/-! ## Helper lemmas -/

theorem videoOnlyController.noLockStop_manual_spec (c : videoOnlyController)
    (hdec : c.media.decodeOpened = true) (hstr : c.media.streamOpened = true) :
    (c.noLockStop .manual).1 = none ∧
    (c.noLockStop .manual).2.state = .Stopped ∧
    (c.noLockStop .manual).2.referencePosition = 0 ∧
    (c.noLockStop .manual).2.lastReadFrame = none ∧
    (c.noLockStop .manual).2.duration = c.duration := by
  unfold videoOnlyController.noLockStop
  by_cases hs : c.state = .Stopped <;>
    simp [hs, mediaState.rewind, mediaState.closeStream, mediaState.closeDecode, hdec, hstr]

theorem videoOnlyController.Position_stopped (c : videoOnlyController) (now : Int)
    (hs : c.state = .Stopped) :
    (c.Position now).1 = (c.referencePosition, none) := by
  simp [videoOnlyController.Position, videoOnlyController.noLockPosition, hs]

/-! ## C1 -/

/-- C1 counterexample: on a playing controller over a 400ms file that retains
the frame at offset 360, `Seek(480)` performs a *manual* stop — afterwards
`Position()` is 0 (not the duration 400) and `CurrentVideoFrame()` returns no
frame (the retained frame is released), contradicting the claimed
stop-to-end treatment. -/
theorem c1_counterexample :
    seekDemo.duration = 400 ∧ seekDemo.lastReadFrame = some 360 ∧
    (seekDemo.Seek 480 1000).1 = (none, none) ∧
    ((seekDemo.Seek 480 1000).2.Position 1000).1 = (0, none) ∧
    ((seekDemo.Seek 480 1000).2.CurrentVideoFrame 1000).1 = (none, false, none) := by
  decide

/-- C1 (amended): `Seek(pos)` clamps in-range positions to `[0, duration)`
(negatives to 0); `pos ≥ Duration()` is treated as a *manual stop* rather
than an error — afterwards `Position()` is 0 and the retained frame is
released — while an in-range `pos` synchronously decodes exactly one frame
(the cursor advances one past the rewind target) and rebases the clock to
`(pos, now)`. -/
theorem c1_amended (c : videoOnlyController) (pos now now2 : Int)
    (hdec : c.media.decodeOpened = true) (hstr : c.media.streamOpened = true) :
    (c.duration ≤ pos →
      (c.Seek pos now).1 = (none, none) ∧
      (c.Seek pos now).2.state = .Stopped ∧
      (c.Seek pos now).2.lastReadFrame = none ∧
      ((c.Seek pos now).2.Position now2).1 = (0, none)) ∧
    (pos < c.duration →
      ∀ f, c.media.frames[c.media.frames.findIdx (fun o => decide (max pos 0 ≤ o))]? = some f →
      (c.Seek pos now).1 = (some f, none) ∧
      (c.Seek pos now).2.lastReadFrame = some f ∧
      (c.Seek pos now).2.referencePosition = max pos 0 ∧
      (c.Seek pos now).2.referenceTime = now ∧
      (c.Seek pos now).2.media.cursor =
        c.media.frames.findIdx (fun o => decide (max pos 0 ≤ o)) + 1 ∧
      (c.Seek pos now).2.media.frames = c.media.frames ∧
      (c.Seek pos now).2.state = c.state) := by
  constructor
  · intro hge
    have hstop := videoOnlyController.noLockStop_manual_spec c hdec hstr
    have hseek : c.Seek pos now =
        ((none, (c.noLockStop .manual).1), (c.noLockStop .manual).2) := by
      unfold videoOnlyController.Seek
      rw [if_pos hge]
    rw [hseek, hstop.1]
    refine ⟨rfl, hstop.2.1, hstop.2.2.2.1, ?_⟩
    rw [videoOnlyController.Position_stopped _ _ hstop.2.1, hstop.2.2.1]
  · intro hlt f hf
    unfold videoOnlyController.Seek
    rw [if_neg (by omega)]
    simp only [mediaState.rewind, hdec, hstr, and_self, if_true, mediaState.readVideoFrame, hf]

/-- C1 witness: the amended theorem applied at `Seek(480)` (past the 400ms
duration) and at the in-range `Seek(100)` on the concrete controller. -/
theorem c1_witness :
    (seekDemo.Seek 480 1000).1 = (none, none) ∧
    ((seekDemo.Seek 480 1000).2.Position 1000).1 = (0, none) ∧
    (seekDemo.Seek 100 1000).1 = (some 120, none) ∧
    (seekDemo.Seek 100 1000).2.referencePosition = 100 := by
  have h := c1_amended seekDemo 480 1000 1000 rfl rfl
  have h2 := c1_amended seekDemo 100 1000 1000 rfl rfl
  refine ⟨(h.1 (by decide)).1, (h.1 (by decide)).2.2.2, ?_, ?_⟩
  · exact (h2.2 (by decide) 120 (by decide)).1
  · have := (h2.2 (by decide) 120 (by decide)).2.2.1
    simpa using this

/-! ## C5 -/

/-- C5 counterexample: a playing video-only controller with
`referencePosition = 0`, `referenceTime = 0`, duration 400ms, queried at
`now = 500`: the projection formula gives 500, but `Position()` returns 400
(the §4.2 end-of-video handling fires instead of the plain formula). -/
theorem c5_counterexample :
    overrunDemo.state = .Playing ∧
    overrunDemo.referencePosition + (500 - overrunDemo.referenceTime) = 500 ∧
    (overrunDemo.Position 500).1 = (400, none) ∧ (400 : Int) ≠ 500 := by
  decide

/-- C5 (amended): with `now` clamped to `referenceTime` (non-fatally), the
live controller returns `referencePosition + (now - referenceTime)` while
Playing and `referencePosition` otherwise, unconditionally; the video-only
controller satisfies the same formulas provided the Playing projection stays
below `Duration()` — once it reaches the duration, the §4.2 loop/end
handling applies instead (see C6 and the counterexample). -/
theorem c5_amended :
    (∀ (c : streamVideoController) (now : Int),
      (c.state = .Playing →
        (c.Position now).1 =
          (c.referencePosition + (max now c.referenceTime - c.referenceTime), none)) ∧
      (c.state ≠ .Playing → (c.Position now).1 = (c.referencePosition, none))) ∧
    (∀ (c : videoOnlyController) (now : Int),
      (c.state = .Playing →
        c.referencePosition + (max now c.referenceTime - c.referenceTime) < c.duration →
        (c.Position now).1 =
          (c.referencePosition + (max now c.referenceTime - c.referenceTime), none)) ∧
      (c.state ≠ .Playing → (c.Position now).1 = (c.referencePosition, none))) := by
  have hmax : ∀ a b : Int, (if a < b then b else a) = max a b := by
    intro a b
    rcases le_or_lt b a with h | h
    · rw [if_neg (not_lt.mpr h), max_eq_left h]
    · rw [if_pos h, max_eq_right h.le]
  constructor
  · intro c now
    constructor
    · intro hp
      simp [streamVideoController.Position, streamVideoController.noLockPosition, hmax, hp]
    · intro hp
      simp [streamVideoController.Position, streamVideoController.noLockPosition, hmax, hp]
  · intro c now
    constructor
    · intro hp hlt
      simp only [videoOnlyController.Position, videoOnlyController.noLockPosition, hmax, hp,
        if_true, if_pos hlt]
    · intro hp
      simp [videoOnlyController.Position, videoOnlyController.noLockPosition, hmax, hp]

/-- A live controller mid-session, playing since instant 100 from logical
position 50. -/
def streamDemo : streamVideoController :=
  { newStreamVideoController with state := .Playing, sessionActive := true,
                                  opened := true, referenceTime := 100,
                                  referencePosition := 50 }

/-- C5 witness: the amended formulas evaluated on the concrete live
controller (`Position(300) = 250`) and on a concrete in-range video-only
controller (`Position(300) = 300`). -/
theorem c5_witness :
    (streamDemo.Position 300).1 = (250, none) ∧
    (overrunDemo.Position 300).1 = (300, none) := by
  have h1 := (c5_amended.1 streamDemo 300).1 rfl
  have h2 := (c5_amended.2 overrunDemo 300).1 rfl (by decide)
  constructor
  · rw [h1]; decide
  · rw [h2]; decide

theorem cadenceFrames_length (n : Nat) (fd : Int) : (cadenceFrames n fd).length = n := by
  rw [cadenceFrames, List.length_map, List.length_range]

theorem cadenceFrames_getElem (n : Nat) (fd : Int) (j : Nat) (h : j < n) :
    (cadenceFrames n fd)[j]? = some ((j : Int) * fd) := by
  rw [cadenceFrames, List.getElem?_map, List.getElem?_range h]
  rfl

theorem findIdx_zero_of_head {α : Type} (p : α → Bool) (l : List α) (a : α)
    (h : l[0]? = some a) (hp : p a = true) : l.findIdx p = 0 := by
  cases l with
  | nil => simp at h
  | cons x xs =>
    simp only [List.getElem?_cons_zero, Option.some.injEq] at h
    subst h
    simp [List.findIdx_cons, hp]

theorem cadenceFrames_findIdx_zero (n : Nat) (fd : Int) (hn : 1 ≤ n) :
    (cadenceFrames n fd).findIdx (fun o => decide ((0 : Int) ≤ o)) = 0 := by
  refine findIdx_zero_of_head _ _ ((0 : Int) * fd) (cadenceFrames_getElem n fd 0 hn) ?_
  simp

/-- Loop-wraparound branch of the video-only position projection: when the
Playing projection reaches the duration with looping enabled, the stream is
rewound, the clock is rebased to `(Δ, now)` and the pending-loop flag set. -/
theorem videoOnlyController.noLockPosition_loop (c : videoOnlyController) (now : Int)
    (hplay : c.state = .Playing) (hloop : c.looping = true)
    (hdec : c.media.decodeOpened = true) (hstr : c.media.streamOpened = true)
    (hnow : c.referenceTime ≤ now)
    (hover : c.duration ≤ c.referencePosition + (now - c.referenceTime)) :
    c.noLockPosition now =
      ((c.referencePosition + (now - c.referenceTime) - c.duration, false, none),
       { c with media := { c.media with
                  cursor := c.media.frames.findIdx (fun o => decide ((0 : Int) ≤ o)) },
                referenceTime := now, videoPendingLoop := true,
                referencePosition := c.referencePosition + (now - c.referenceTime) - c.duration }) := by
  unfold videoOnlyController.noLockPosition mediaState.rewind
  rw [if_neg (not_lt.mpr hnow), if_pos hplay]
  dsimp only
  rw [if_neg (not_lt.mpr hover), if_pos hloop, if_pos ⟨hdec, hstr⟩]

/-- Catch-up characterization of the video-only frame loop on a
constant-cadence stream, after the pending-loop flag has been cleared:
starting from the frame `k·fd` with cursor `k+1`, the loop either stops
immediately (returning `k·fd`) or every further frame it reads — including
the returned one — lies strictly below the target position. -/
theorem cvfLoop_cadence (n : Nat) (fd Δ now : Int) (hfd0 : 0 < fd) (hΔ : Δ ≤ (n : Int) * fd) :
    ∀ (fuel k : Nat), n - k ≤ fuel →
      ∀ (c : videoOnlyController) (prev : Int),
      c.videoPendingLoop = false →
      c.frameDuration = fd →
      c.media.frames = cadenceFrames n fd →
      c.media.cursor = k + 1 →
      c.media.decodeOpened = true →
      c.media.streamOpened = true →
      c.lastReadFrame = some ((k : Int) * fd) →
      k + 1 ≤ n →
      ∃ (R : Int) (c' : videoOnlyController),
        c.cvfLoop now Δ prev ((k : Int) * fd) fuel = ((some R, false, none), c') ∧
        (R = (k : Int) * fd ∨ R < Δ) ∧
        c'.state = c.state ∧ c'.videoPendingLoop = false ∧ c'.lastReadFrame = some R := by
  intro fuel
  induction fuel with
  | zero =>
    intro k hfuel c prev hpend hfd hframes hcur hdec hstr hlast hkn
    omega
  | succ fuel IH =>
    intro k hfuel c prev hpend hfd hframes hcur hdec hstr hlast hkn
    by_cases hcond : (k : Int) * fd + fd < Δ
    · have hkn2 : k + 1 < n := by
        have h1 : ((k : Int) + 1) * fd < (n : Int) * fd := by
          have : ((k : Int) + 1) * fd = (k : Int) * fd + fd := by ring
          omega
        have h2 : ((k : Int) + 1) < (n : Int) := lt_of_mul_lt_mul_right h1 hfd0.le
        exact_mod_cast h2
      have hread : c.media.readVideoFrame =
          ((some (((k + 1 : Nat) : Int) * fd), none),
           { c.media with cursor := c.media.cursor + 1 }) := by
        unfold mediaState.readVideoFrame
        rw [if_pos ⟨hdec, hstr⟩]
        rw [show c.media.frames[c.media.cursor]? = some (((k + 1 : Nat) : Int) * fd) from by
          rw [hframes, hcur]; exact cadenceFrames_getElem n fd (k + 1) hkn2]
      rw [videoOnlyController.cvfLoop]
      rw [if_pos (Or.inl (by rw [hfd]; exact hcond))]
      simp only [hpend, Bool.false_eq_true, false_and, if_false, hread]
      obtain ⟨R, c', heqr, hR, hst, hpf, hlf⟩ :=
        IH (k + 1) (by omega)
          { c with media := { c.media with cursor := c.media.cursor + 1 },
                   videoPendingLoop := false,
                   lastReadFrame := some (((k + 1 : Nat) : Int) * fd) }
          ((k : Int) * fd) rfl hfd hframes (by simp [hcur]) hdec hstr rfl (by omega)
      refine ⟨R, c', heqr, ?_, hst, hpf, hlf⟩
      rcases hR with hR | hR
      · right
        rw [hR]
        push_cast
        have : ((k : Int) + 1) * fd = (k : Int) * fd + fd := by ring
        omega
      · exact Or.inr hR
    · rw [videoOnlyController.cvfLoop]
      rw [if_neg (by rw [hfd]; simp [hpend, hcond])]
      exact ⟨(k : Int) * fd, c, by rw [hlast], Or.inl rfl, rfl, hpend, hlast⟩

/-- One iteration of the catch-up loop that reads a frame without clearing
the pending-loop flag. -/
theorem cvfLoop_step (c : videoOnlyController) (now Δ prev pres off : Int) (fuel : Nat)
    (hcond : pres + c.frameDuration < Δ ∨ c.videoPendingLoop = true)
    (hnc : ¬(c.videoPendingLoop = true ∧ pres < prev))
    (hread : c.media.readVideoFrame =
      ((some off, none), { c.media with cursor := c.media.cursor + 1 })) :
    c.cvfLoop now Δ prev pres (fuel + 1) =
      videoOnlyController.cvfLoop
        { c with media := { c.media with cursor := c.media.cursor + 1 },
                 lastReadFrame := some off } now Δ pres off fuel := by
  rw [videoOnlyController.cvfLoop]
  rw [if_pos hcond, if_neg hnc]
  simp only [hread]

/-- One iteration of the catch-up loop that observes the offset drop
confirming the loop rewind: it clears the pending-loop flag and reads the
next frame. -/
theorem cvfLoop_step_clear (c : videoOnlyController) (now Δ prev pres off : Int) (fuel : Nat)
    (hcond : pres + c.frameDuration < Δ ∨ c.videoPendingLoop = true)
    (hc : c.videoPendingLoop = true ∧ pres < prev)
    (hread : c.media.readVideoFrame =
      ((some off, none), { c.media with cursor := c.media.cursor + 1 })) :
    c.cvfLoop now Δ prev pres (fuel + 1) =
      videoOnlyController.cvfLoop
        { c with videoPendingLoop := false,
                 media := { c.media with cursor := c.media.cursor + 1 },
                 lastReadFrame := some off } now Δ pres off fuel := by
  rw [videoOnlyController.cvfLoop]
  rw [if_pos hcond, if_pos hc]
  simp only [hread]

/-- After a loop rewind (pending flag set, cursor at 0) with the pre-loop
frame `L` still held, the next run of the catch-up loop on a constant-cadence
stream returns a frame strictly below `L`, with the pending flag cleared and
the state untouched, provided the wrapped target `Δ` does not exceed `L`. -/
theorem cvfLoop_after_rewind (n : Nat) (fd Δ now L : Int) (c : videoOnlyController)
    (fuel : Nat) (hfuel : n + 1 ≤ fuel)
    (hpend : c.videoPendingLoop = true)
    (hfd : c.frameDuration = fd) (hfd0 : 0 < fd)
    (hframes : c.media.frames = cadenceFrames n fd)
    (hcur : c.media.cursor = 0)
    (hdec : c.media.decodeOpened = true) (hstr : c.media.streamOpened = true)
    (hL : fd < L) (hn : 2 ≤ n) (hΔn : Δ ≤ (n : Int) * fd) (hΔL : Δ ≤ L) :
    ∃ (R : Int) (c' : videoOnlyController),
      c.cvfLoop now Δ L L fuel = ((some R, false, none), c') ∧ R < L ∧
      c'.state = c.state ∧ c'.videoPendingLoop = false ∧ c'.lastReadFrame = some R := by
  have hL0 : (0 : Int) < L := hfd0.trans hL
  obtain ⟨f, rfl⟩ : ∃ f, fuel = f + 2 := ⟨fuel - 2, by omega⟩
  have hread0 : c.media.readVideoFrame =
      ((some (((0 : Nat) : Int) * fd), none),
       { c.media with cursor := c.media.cursor + 1 }) := by
    unfold mediaState.readVideoFrame
    rw [if_pos ⟨hdec, hstr⟩]
    rw [show c.media.frames[c.media.cursor]? = some (((0 : Nat) : Int) * fd) from by
      rw [hframes, hcur]; exact cadenceFrames_getElem n fd 0 (by omega)]
  rw [show f + 2 = (f + 1) + 1 from rfl]
  rw [cvfLoop_step c now Δ L L (((0 : Nat) : Int) * fd) (f + 1)
    (Or.inr hpend) (fun hcontra => absurd hcontra.2 (lt_irrefl L)) hread0]
  have hread1 :
      (videoOnlyController.media
        { c with media := { c.media with cursor := c.media.cursor + 1 },
                 lastReadFrame := some (((0 : Nat) : Int) * fd) }).readVideoFrame =
      ((some (((1 : Nat) : Int) * fd), none),
       { { c.media with cursor := c.media.cursor + 1 } with
           cursor := { c.media with cursor := c.media.cursor + 1 }.cursor + 1 }) := by
    show ({ c.media with cursor := c.media.cursor + 1 } : mediaState).readVideoFrame = _
    unfold mediaState.readVideoFrame
    rw [if_pos ⟨hdec, hstr⟩]
    rw [show ({ c.media with cursor := c.media.cursor + 1 } : mediaState).frames[({ c.media with cursor := c.media.cursor + 1 } : mediaState).cursor]? = some (((1 : Nat) : Int) * fd) from by
      show c.media.frames[c.media.cursor + 1]? = _
      rw [hframes, hcur]
      exact cadenceFrames_getElem n fd 1 (by omega)]
  rw [cvfLoop_step_clear
    { c with media := { c.media with cursor := c.media.cursor + 1 },
             lastReadFrame := some (((0 : Nat) : Int) * fd) }
    now Δ L (((0 : Nat) : Int) * fd) (((1 : Nat) : Int) * fd) f
    (Or.inr hpend) (by constructor; exact hpend; simpa using hL0) hread1]
  obtain ⟨R, c', heqr, hR, hst, hpf, hlf⟩ :=
    cvfLoop_cadence n fd Δ now hfd0 hΔn f 1 (by omega)
      { { c with media := { c.media with cursor := c.media.cursor + 1 },
                 lastReadFrame := some (((0 : Nat) : Int) * fd) } with
          videoPendingLoop := false,
          media := { { c.media with cursor := c.media.cursor + 1 } with
                      cursor := { c.media with cursor := c.media.cursor + 1 }.cursor + 1 },
          lastReadFrame := some (((1 : Nat) : Int) * fd) }
      (((0 : Nat) : Int) * fd) rfl hfd hframes (by simp [hcur]) hdec hstr rfl (by omega)
  refine ⟨R, c', heqr, ?_, hst, hpf, hlf⟩
  rcases hR with hR | hR
  · rw [hR]
    simpa using hL
  · omega

/-! ## C6 -/

/-- C6 counterexample: a playing, looping controller holding the frame at
offset 40, with wrapped position Δ = 280 after overrunning the 400ms
duration: the rebase yields position 280 as claimed, but the very next
`CurrentVideoFrame()` — which does observe the rewind and clears the pending
flag — catches up to the wrapped target and returns the frame at offset 240,
which is *higher* than the previously returned frame's offset 40. -/
theorem c6_counterexample :
    loopDemo.lastReadFrame = some 40 ∧ loopDemo.looping = true ∧
    loopDemo.duration = 400 ∧
    (loopDemo.noLockPosition 600).1 = (280, false, none) ∧
    (loopDemo.CurrentVideoFrame 600).1 = (some 240, false, none) ∧
    ((loopDemo.CurrentVideoFrame 600).2.videoPendingLoop = false) ∧
    ¬((240 : Int) < 40) := by
  decide

/-- C6 (amended): when the projected Playing position exceeds `Duration()`
by `Δ`, the position computation rebases the clock (`referenceTime = now`,
returned position `Δ`), sets the pending-loop flag and stays Playing; the
next `CurrentVideoFrame()` observes the rewind (clearing the pending flag)
and returns a frame decoded after the rewind whose offset is lower than the
previously returned frame's offset *provided* `Δ` does not exceed that
offset (and the offset spans more than one frame duration) — when the wrap
overshoots the previous frame's offset, the catch-up to `Δ` can return a
frame with a higher offset (see the counterexample). -/
theorem c6_amended (c : videoOnlyController) (now : Int) (n : Nat) (fd L : Int)
    (hplay : c.state = .Playing) (hloop : c.looping = true)
    (hfd : c.frameDuration = fd) (hfd0 : 0 < fd)
    (hframes : c.media.frames = cadenceFrames n fd)
    (hdur : c.duration = (n : Int) * fd) (hn : 2 ≤ n)
    (hdec : c.media.decodeOpened = true) (hstr : c.media.streamOpened = true)
    (hlast : c.lastReadFrame = some L) (hL : fd < L)
    (hnow : c.referenceTime ≤ now)
    (hover : c.duration ≤ c.referencePosition + (now - c.referenceTime))
    (hsingle : c.referencePosition + (now - c.referenceTime) - c.duration < c.duration)
    (hdl : c.referencePosition + (now - c.referenceTime) - c.duration ≤ L) :
    ((c.noLockPosition now).1 =
       (c.referencePosition + (now - c.referenceTime) - c.duration, false, none) ∧
     (c.noLockPosition now).2.referencePosition =
       c.referencePosition + (now - c.referenceTime) - c.duration ∧
     (c.noLockPosition now).2.referenceTime = now ∧
     (c.noLockPosition now).2.videoPendingLoop = true ∧
     (c.noLockPosition now).2.state = .Playing) ∧
    ∃ (R : Int) (c' : videoOnlyController),
      c.CurrentVideoFrame now = ((some R, false, none), c') ∧ R < L ∧
      c'.state = .Playing ∧ c'.videoPendingLoop = false := by
  have hpos := videoOnlyController.noLockPosition_loop c now hplay hloop hdec hstr hnow hover
  have hidx : c.media.frames.findIdx (fun o => decide ((0 : Int) ≤ o)) = 0 := by
    rw [hframes]
    exact cadenceFrames_findIdx_zero n fd (by omega)
  constructor
  · rw [hpos]
    exact ⟨rfl, rfl, rfl, rfl, hplay⟩
  · have hcvf : c.CurrentVideoFrame now =
        videoOnlyController.cvfLoop
          { c with media := { c.media with
                     cursor := c.media.frames.findIdx (fun o => decide ((0 : Int) ≤ o)) },
                   referenceTime := now, videoPendingLoop := true,
                   referencePosition := c.referencePosition + (now - c.referenceTime) - c.duration }
          now (c.referencePosition + (now - c.referenceTime) - c.duration) L L
          (c.media.frames.length - c.media.frames.findIdx (fun o => decide ((0 : Int) ≤ o)) + 1) := by
      unfold videoOnlyController.CurrentVideoFrame
      rw [if_neg (by rw [hplay]; intro hcontra; cases hcontra)]
      rw [hpos]
      dsimp only
      rw [hlast]
    rw [hcvf]
    obtain ⟨R, c', heqr, hRL, hst, hpf, hlf⟩ :=
      cvfLoop_after_rewind n fd (c.referencePosition + (now - c.referenceTime) - c.duration)
        now L
        { c with media := { c.media with
                   cursor := c.media.frames.findIdx (fun o => decide ((0 : Int) ≤ o)) },
                 referenceTime := now, videoPendingLoop := true,
                 referencePosition := c.referencePosition + (now - c.referenceTime) - c.duration }
        (c.media.frames.length - c.media.frames.findIdx (fun o => decide ((0 : Int) ≤ o)) + 1)
        (by rw [hidx, hframes, cadenceFrames_length]; omega)
        rfl hfd hfd0 hframes hidx hdec hstr hL hn (by rw [← hdur]; omega) hdl
    exact ⟨R, c', heqr, hRL, hst.trans hplay, hpf⟩

/-- C6 witness: the amended theorem applied to a concrete looping controller
holding the late frame at offset 360, with wrap Δ = 200: the rebase reports
200 and the next frame returned has an offset below 360. -/
theorem c6_witness :
    (loopDemoLate.noLockPosition 520).1 = (200, false, none) ∧
    (∃ (R : Int) (c' : videoOnlyController),
      loopDemoLate.CurrentVideoFrame 520 = ((some R, false, none), c') ∧ R < 360 ∧
      c'.state = .Playing ∧ c'.videoPendingLoop = false) := by
  have h := c6_amended loopDemoLate 520 10 40 360 rfl rfl rfl (by decide) rfl (by decide)
    (by decide) rfl rfl rfl (by decide) (by decide) (by decide) (by decide) (by decide)
  exact ⟨by simpa using h.1.1, h.2⟩

/-! ## C2 -/

/-- The audio-driven consume loop, with the pending-loop flag clear, stops at
the *first* queued frame whose `offset + frameDuration` reaches the target
position (or at the final queued frame when none does). -/
theorem avConsume_spec (fd position : Int) :
    ∀ (queue : List Int) (prev pres : Int) (lastRead : Option Int),
      pres + fd < position →
      queue ≠ [] →
      ∃ (R : Int) (rest : List Int),
        avConsume fd position false prev pres lastRead queue = (some R, false, rest) ∧
        (firstDueFrame fd position queue = some R ∨
         (firstDueFrame fd position queue = none ∧ rest = [] ∧
          queue.getLast? = some R)) := by
  intro queue
  induction queue with
  | nil =>
    intro _ _ _ _ hne
    exact absurd rfl hne
  | cons q qs IHq =>
    intro prev pres lastRead hlt _
    rw [avConsume, if_pos (Or.inl hlt)]
    simp only [Bool.false_eq_true, false_and, if_false]
    by_cases hq : q + fd < position
    · have hpred : decide (position ≤ q + fd) = false := by
        simp [not_le.mpr hq]
      have hfind : firstDueFrame fd position (q :: qs) = firstDueFrame fd position qs := by
        simp [firstDueFrame, List.find?, hpred]
      cases qs with
      | nil =>
        refine ⟨q, [], by rw [avConsume], Or.inr ⟨?_, rfl, rfl⟩⟩
        rw [hfind]
        rfl
      | cons q2 qs2 =>
        obtain ⟨R, rest, heq, hcase⟩ := IHq pres q (some q) hq (by simp)
        refine ⟨R, rest, heq, ?_⟩
        rw [hfind]
        rcases hcase with hfind2 | ⟨hfind2, hrest, hlastq⟩
        · exact Or.inl hfind2
        · exact Or.inr ⟨hfind2, hrest, by rw [List.getLast?_cons_cons]; exact hlastq⟩
    · have hpred : decide (position ≤ q + fd) = true := by
        simp [not_lt.mp hq]
      have hfind : firstDueFrame fd position (q :: qs) = some q := by
        simp [firstDueFrame, List.find?, hpred]
      cases qs with
      | nil => exact ⟨q, [], by rw [avConsume], Or.inl hfind⟩
      | cons q2 qs2 =>
        refine ⟨q, q2 :: qs2, ?_, Or.inl hfind⟩
        rw [avConsume, if_neg (by simp [hq])]

/-- In-range branch of the audio-driven position projection. -/
theorem videoWithAudioController.noLockPosition_inrange (c : videoWithAudioController)
    (p0 : audioPlayerState)
    (hplayer : c.audioPlayer = some p0) (hneed : c.needsFirstAudioFrameOffset = false)
    (hlt : c.firstAudioFrameOffsetOnPlay + p0.pos < c.duration) :
    c.noLockPosition = ((c.firstAudioFrameOffsetOnPlay + p0.pos, false, none), c) := by
  unfold videoWithAudioController.noLockPosition
  rw [hplayer]
  simp only [hneed, Bool.false_eq_true, if_false, if_pos hlt]

/-- C2 counterexample: the audio-driven controller at position exactly
2000ms, holding the frame at 1920ms with frames 1960/2000/2040 already
decoded into the pending queue: `CurrentVideoFrame()` returns the frame at
offset 1960, even though the decoded frame at offset 2000 satisfies
`presentationOffset ≤ p` and is later than 1960. -/
theorem c2_counterexample :
    avBoundaryDemo.state = .Playing ∧
    (avBoundaryDemo.noLockPosition).1 = (2000, false, none) ∧
    avBoundaryDemo.leftoverVideo.contains 2000 = true ∧
    ((2000 : Int) ≤ 2000) ∧
    (avBoundaryDemo.CurrentVideoFrame).1 = (some 1960, false, none) ∧
    ((1960 : Int) < 2000) := by
  decide

set_option maxRecDepth 4000 in
/-- C2 (amended): while Playing at audio-derived position `p` with no
pending loop and no end reached, `CurrentVideoFrame()` advances through the
pending queue up to the *first* decoded frame whose
`presentationOffset + frameDuration ≥ p` (the last queued frame when none
reaches that bound).  When `p` is not an exact multiple of the frame
cadence, that frame is precisely the last decoded frame with offset `≤ p`:
in particular, in the spec's 25fps scenario at `p = 2.04s` the returned
frame has offset 2.00s; at exact frame boundaries the returned frame is one
cadence step earlier (see the counterexample). -/
theorem c2_amended :
    (∀ (c : videoWithAudioController) (p0 : audioPlayerState) (L : Int),
      c.state = .Playing →
      c.audioPlayer = some p0 →
      c.needsFirstAudioFrameOffset = false →
      c.videoPendingLoop = false →
      c.lastReadFrame = some L →
      c.firstAudioFrameOffsetOnPlay + p0.pos < c.duration →
      L + c.frameDuration < c.firstAudioFrameOffsetOnPlay + p0.pos →
      c.leftoverVideo ≠ [] →
      ∃ (R : Int) (rest : List Int),
        (c.CurrentVideoFrame).1 = (some R, false, none) ∧
        (c.CurrentVideoFrame).2.leftoverVideo = rest ∧
        (firstDueFrame c.frameDuration (c.firstAudioFrameOffsetOnPlay + p0.pos)
            c.leftoverVideo = some R ∨
         (firstDueFrame c.frameDuration (c.firstAudioFrameOffsetOnPlay + p0.pos)
            c.leftoverVideo = none ∧ rest = [] ∧ c.leftoverVideo.getLast? = some R))) ∧
    (avCadenceDemo.CurrentVideoFrame).1 = (some 2000, false, none) := by
  constructor
  · intro c p0 L hplay hplayer hneed hpend hlast hp hstale hne
    obtain ⟨R, rest, heq, hcase⟩ :=
      avConsume_spec c.frameDuration (c.firstAudioFrameOffsetOnPlay + p0.pos)
        c.leftoverVideo L L (some L) hstale hne
    have hcvf : c.CurrentVideoFrame =
        ((some R, false, none),
         { c with lastReadFrame := some R, videoPendingLoop := false,
                  leftoverVideo := rest }) := by
      unfold videoWithAudioController.CurrentVideoFrame
      rw [if_neg (by rw [hplay]; intro hcontra; cases hcontra)]
      rw [videoWithAudioController.noLockPosition_inrange c p0 hplayer hneed hp]
      dsimp only
      rw [hlast]
      dsimp only
      rw [hpend, heq]
    rw [hcvf]
    exact ⟨R, rest, rfl, rfl, hcase⟩
  · decide

/-- C2 witness: the amended characterization applied to the concrete
boundary-position controller — the returned frame is the first queued frame
reaching the catch-up bound, namely 1960. -/
theorem c2_witness :
    ∃ (R : Int) (rest : List Int),
      (avBoundaryDemo.CurrentVideoFrame).1 = (some R, false, none) ∧
      (avBoundaryDemo.CurrentVideoFrame).2.leftoverVideo = rest ∧
      (firstDueFrame avBoundaryDemo.frameDuration
          (avBoundaryDemo.firstAudioFrameOffsetOnPlay +
            (⟨2000, true⟩ : audioPlayerState).pos)
          avBoundaryDemo.leftoverVideo = some R ∨
       (firstDueFrame avBoundaryDemo.frameDuration
          (avBoundaryDemo.firstAudioFrameOffsetOnPlay +
            (⟨2000, true⟩ : audioPlayerState).pos)
          avBoundaryDemo.leftoverVideo = none ∧ rest = [] ∧
        avBoundaryDemo.leftoverVideo.getLast? = some R)) :=
  c2_amended.1 avBoundaryDemo ⟨2000, true⟩ 1920 rfl rfl rfl rfl rfl (by decide)
    (by decide) (by decide)

/-! ## C7 -/

theorem land_three_eq_mod (n : Nat) : n &&& 3 = n % 4 := by
  have h4 : (4 : Nat) = 2 ^ 2 := by norm_num
  have h3 : (3 : Nat) = 2 ^ 2 - 1 := by norm_num
  rw [h3, h4]
  apply Nat.eq_of_testBit_eq
  intro i
  rw [Nat.testBit_land, Nat.testBit_two_pow_sub_one, Nat.testBit_mod_two_pow, Bool.and_comm]

/-- The Go mask `len & (math.MaxInt - 0b11)` clears the two low bits: for any
int64-representable length it equals the largest multiple of 4 below it. -/
theorem goAndMask63_eq (n : Nat) (hn : n < 2 ^ 63) : goAndMask63 n = n - n % 4 := by
  have h4 : n - n % 4 = 2 ^ 2 * (n >>> 2) := by
    rw [Nat.shiftRight_eq_div_pow]
    omega
  have hmask : (2 ^ 63 - 1 - 0b11 : Nat) = 2 ^ 2 * (2 ^ 61 - 1) := by norm_num
  rw [goAndMask63, h4, hmask]
  apply Nat.eq_of_testBit_eq
  intro i
  rw [Nat.testBit_land, Nat.testBit_mul_pow_two, Nat.testBit_mul_pow_two,
      Nat.testBit_shiftRight, Nat.testBit_two_pow_sub_one]
  by_cases h2 : 2 ≤ i
  · have hadd : 2 + (i - 2) = i := by omega
    rw [hadd]
    by_cases h63 : i < 63
    · simp [ge_iff_le, h2, show i - 2 < 61 by omega]
    · have hz : n.testBit i = false :=
        Nat.testBit_lt_two_pow
          (lt_of_lt_of_le hn (Nat.pow_le_pow_right (by omega) (by omega)))
      simp [hz]
  · simp [ge_iff_le, h2]

set_option maxRecDepth 10000 in
/-- C7: a pull request whose length is not a whole-sample multiple of 4
panics under the strict policy; under the truncation policy the request is
served exactly as if the buffer had the largest multiple-of-4 length not
exceeding it; concretely, a 777-byte request with 800 buffered bytes serves
exactly 776 bytes with no error. -/
theorem c7_theorem :
    (∀ (c : videoWithAudioController) (n : Nat), n % 4 ≠ 0 →
      videoWithAudioController.Read true c n =
        (.panicked "ebitengine should only provide buffers multiple of 4 for serving L16 audio data", c)) ∧
    (∀ (c : videoWithAudioController) (n : Nat), n < 2 ^ 63 →
      videoWithAudioController.Read false c n =
        videoWithAudioController.Read false c (n - n % 4)) ∧
    (videoWithAudioController.Read false avReadDemo 777).1 = .ok 776 := by
  refine ⟨?_, ?_, by decide⟩
  · intro c n hmod
    unfold videoWithAudioController.Read
    rw [if_pos (by rw [land_three_eq_mod]; exact hmod)]
    rw [if_pos rfl]
  · intro c n hn
    by_cases hmod : n % 4 = 0
    · rw [hmod, Nat.sub_zero]
    · unfold videoWithAudioController.Read
      rw [if_pos (by rw [land_three_eq_mod]; exact hmod),
          if_neg (by intro h; cases h),
          if_neg (by rw [land_three_eq_mod]; omega),
          goAndMask63_eq n hn]

/-- C7 witness: the theorem applied at the 777-byte request. -/
theorem c7_witness :
    videoWithAudioController.Read true avReadDemo 777 =
      (.panicked "ebitengine should only provide buffers multiple of 4 for serving L16 audio data",
       avReadDemo) ∧
    videoWithAudioController.Read false avReadDemo 777 =
      videoWithAudioController.Read false avReadDemo 776 := by
  constructor
  · exact c7_theorem.1 avReadDemo 777 (by decide)
  · have h := c7_theorem.2.1 avReadDemo 777 (by norm_num)
    norm_num at h
    exact h

/-! ## C9 -/

/-- C9: `Seek` on the audio-driven controller panics unconditionally with
"unimplemented", for every position argument and in every controller state;
no audio-backed seek completes normally. -/
theorem c9_theorem : ∀ (c : videoWithAudioController) (position : Int),
    c.Seek position = .panicked "unimplemented" :=
  fun _ _ => rfl

/-! ## C3 -/

/-- Stream metadata used by the construction checks. -/
def v3demo : videoStreamInfo := { frNum := 25, frDenom := 1, duration := 10000 }

/-- A six-channel audio stream whose sample rate matches the context. -/
def a3six : audioStreamInfo := { sampleRate := 48000, channelCount := 6, duration := 10000 }

/-- An unopened A/V media handle. -/
def avFreshMedia : avMediaState :=
  { packets := [], cursor := 0, freed := false, decodeOpened := false,
    videoOpened := false, audioOpened := false }

/-- An unopened video-only media handle. -/
def voFreshMedia : mediaState :=
  { frames := [], cursor := 0, freed := false, decodeOpened := false, streamOpened := false }

/-- C3: the construction-time checks for no-video (`ErrNoVideo`), missing
audio context (`ErrNilAudioContext`) and sample-rate mismatch
(`ErrBadSampleRate`) all fire synchronously — but the claimed
more-than-two-channels rejection does not exist: `newVideoWithAudioController`
never returns `ErrTooManyChannels` for any input, and construction over a
six-channel stream succeeds. -/
theorem c3_theorem :
    (∀ (ctx : Option Int) (v : videoStreamInfo) (a : audioStreamInfo) (m : avMediaState),
      newVideoWithAudioController ctx v a m ≠ .error .errTooManyChannels) ∧
    (∃ c, newVideoWithAudioController (some 48000) v3demo a3six avFreshMedia = .ok c) ∧
    newVideoWithAudioController none v3demo a3six avFreshMedia = .error .errNilAudioContext ∧
    newVideoWithAudioController (some 44100) v3demo a3six avFreshMedia = .error .errBadSampleRate ∧
    newPlayer (some 48000) [] [a3six] false avFreshMedia voFreshMedia 0 = .error .errNoVideo := by
  refine ⟨?_, ⟨_, rfl⟩, rfl, rfl, rfl⟩
  intro ctx v a m
  cases ctx with
  | none =>
    intro h
    simp [newVideoWithAudioController] at h
  | some r =>
    intro h
    unfold newVideoWithAudioController at h
    dsimp only at h
    by_cases hr : r ≠ a.sampleRate
    · rw [if_pos hr] at h
      injection h with h2
      cases h2
    · rw [if_neg hr] at h
      exact Except.noConfusion h

/-- C3 witness: the never-returned error instantiated at the six-channel
construction input. -/
theorem c3_witness :
    newVideoWithAudioController (some 48000) v3demo a3six avFreshMedia ≠
      .error .errTooManyChannels :=
  c3_theorem.1 (some 48000) v3demo a3six avFreshMedia

/-! ## C8 -/

/-- C8 counterexample: `SetLooping(true)` on the live controller is a
complete no-op — the state is unchanged and, the interface method returning
nothing, no unsupported-operation error is (or can be) produced;
`GetLooping` still reports false afterwards. -/
theorem c8_counterexample :
    streamDemo.SetLooping true = streamDemo ∧
    (streamDemo.SetLooping true).GetLooping = false := by
  decide

/-- C8 (amended): on the live controller `Seek` returns the defined
"cannot seek in live stream" error (never a panic) for every argument in
every state, and `Duration()` always returns 0 — but `SetLooping` is a
silent no-op rather than an error (its interface signature has no error
return), with `GetLooping` pinned to false. -/
theorem c8_amended : ∀ (c : streamVideoController) (position : Int) (b : Bool),
    c.Seek position = ((none, some .errCannotSeekLiveStream), c) ∧
    c.Duration = 0 ∧
    c.SetLooping b = c ∧
    c.GetLooping = false :=
  fun _ _ _ => ⟨rfl, rfl, rfl, rfl⟩

/-! ## C10 -/

/-- `streamVideoController.State` (refreshes the logical clock, which for the
live controller has no side effects on stored state). -/
def streamVideoController.StateQuery (c : streamVideoController) (now : Int) :
    (PlaybackState × Option goError) × streamVideoController :=
  match c.noLockPosition now with
  | ((_, _, _), c') => ((c'.state, none), c')

/-- States of the live-stream controller reachable through its public
operations and the schedule step's publications. -/
inductive reachStream : streamVideoController → Prop where
  | init : reachStream newStreamVideoController
  | play (c : streamVideoController) (now : Int) : reachStream c → reachStream (c.Play now).2
  | pause (c : streamVideoController) (now : Int) : reachStream c → reachStream (c.Pause now).2
  | stop (c : streamVideoController) : reachStream c → reachStream c.Stop.2
  | close (c : streamVideoController) : reachStream c → reachStream c.Close.2
  | publish (c : streamVideoController) (pts nowBase now : Int) :
      reachStream c → reachStream (c.publishFrame pts nowBase now)
  | positionQ (c : streamVideoController) (now : Int) :
      reachStream c → reachStream (c.Position now).2
  | stateQ (c : streamVideoController) (now : Int) :
      reachStream c → reachStream (c.StateQuery now).2

theorem reachStream_inv (c : streamVideoController) (h : reachStream c) :
    c.havePTSBase = false → c.lastReadFrame = none := by
  induction h with
  | init => intro; rfl
  | play c now hr IH =>
    unfold streamVideoController.Play
    split
    · exact IH
    · split
      · intro; rfl
      · exact IH
  | pause c now hr IH =>
    unfold streamVideoController.Pause
    split
    · exact IH
    · split
      rename_i pos fst snd c' heq
      unfold streamVideoController.noLockPosition at heq
      dsimp only at heq
      split at heq <;> (injection heq with h1 h2; subst h2; exact IH)
  | stop c hr IH =>
    unfold streamVideoController.Stop streamVideoController.noLockStop
    dsimp only
    split
    · intro; rfl
    · intro; rfl
  | close c hr IH =>
    unfold streamVideoController.Close streamVideoController.noLockStop
    dsimp only
    split
    · intro; rfl
    · intro; rfl
  | publish c pts nowBase now hr IH =>
    unfold streamVideoController.publishFrame
    split
    · dsimp only
      split <;> rename_i hb
      · intro hfalse
        simp at hfalse
      · intro hfalse
        rw [hfalse] at hb
        simp at hb
    · exact IH
  | positionQ c now hr IH =>
    unfold streamVideoController.Position
    split
    rename_i pos e c' heq
    unfold streamVideoController.noLockPosition at heq
    dsimp only at heq
    split at heq <;> (injection heq with h1 h2; subst h2; exact IH)
  | stateQ c now hr IH =>
    unfold streamVideoController.StateQuery
    split
    rename_i r1 r2 r3 c' heq
    unfold streamVideoController.noLockPosition at heq
    dsimp only at heq
    split at heq <;> (injection heq with h1 h2; subst h2; exact IH)

/-- C10: the live controller's `CurrentVideoFrame()` always returns exactly
the last frame published by the scheduler with end-reached `false` and a nil
error; and in every reachable state in which no frame of the session has
been published (no PTS base captured yet), the returned frame is nil. -/
theorem c10_theorem :
    (∀ c : streamVideoController, c.CurrentVideoFrame = ((c.lastReadFrame, false, none), c)) ∧
    (∀ c : streamVideoController, reachStream c →
      c.havePTSBase = false → c.lastReadFrame = none) :=
  ⟨fun _ => rfl, reachStream_inv⟩

/-- C10 witness: right after `Play()` from the initial state, before any
publication, the PTS base is unset and `CurrentVideoFrame()` returns a nil
frame with `false` and no error. -/
theorem c10_witness :
    (newStreamVideoController.Play 5).2.havePTSBase = false ∧
    (newStreamVideoController.Play 5).2.lastReadFrame = none ∧
    (newStreamVideoController.Play 5).2.CurrentVideoFrame =
      ((none, false, none), (newStreamVideoController.Play 5).2) := by
  have hnil := c10_theorem.2 (newStreamVideoController.Play 5).2
    (reachStream.play newStreamVideoController 5 reachStream.init) rfl
  refine ⟨rfl, hnil, ?_⟩
  rw [c10_theorem.1 (newStreamVideoController.Play 5).2, hnil]

/-! ## C4 -/

/-- The Stopped-position invariant of the video-only controller, together
with the handle-state bookkeeping needed to propagate it: when stopped the
stream handles are closed and the stored position is 0 or the duration;
while playing or paused the handles are open. -/
def InvVO (c : videoOnlyController) : Prop :=
  (c.state = .Stopped → (c.referencePosition = 0 ∨ c.referencePosition = c.duration)) ∧
  (c.state = .Stopped → c.media.decodeOpened = false ∧ c.media.streamOpened = false) ∧
  (c.state ≠ .Stopped → c.media.decodeOpened = true ∧ c.media.streamOpened = true)

theorem InvVO_noLockStop (c : videoOnlyController) (m : stopMode) (hInv : InvVO c) :
    InvVO (c.noLockStop m).2 ∧ (c.noLockStop m).2.state = .Stopped ∧
    (c.noLockStop m).2.duration = c.duration ∧
    (m = .manual → (c.noLockStop m).2.referencePosition = 0) ∧
    (m = .endOfVideo → c.state ≠ .Stopped →
      (c.noLockStop m).2.referencePosition = c.duration) := by
  obtain ⟨h1, h2, h3⟩ := hInv
  unfold videoOnlyController.noLockStop
  by_cases hs : c.state = .Stopped
  · obtain ⟨hdec, hstr⟩ := h2 hs
    cases m with
    | manual => simp [InvVO, hs, hdec, hstr]
    | endOfVideo => simp [InvVO, hs, hdec, hstr, h1 hs]
  · have hopen := h3 hs
    cases m with
    | manual =>
      simp [InvVO, hs, hopen.1, hopen.2, mediaState.rewind, mediaState.closeStream,
        mediaState.closeDecode]
    | endOfVideo =>
      simp [InvVO, hs, hopen.1, hopen.2, mediaState.rewind, mediaState.closeStream,
        mediaState.closeDecode]

theorem InvVO_noLockPosition (c : videoOnlyController) (now : Int) (hInv : InvVO c) :
    InvVO (c.noLockPosition now).2 ∧
    (c.noLockPosition now).2.duration = c.duration ∧
    ((c.noLockPosition now).1.2.1 = false →
      (c.noLockPosition now).2.state = c.state ∧
      (c.noLockPosition now).2.media.decodeOpened = c.media.decodeOpened ∧
      (c.noLockPosition now).2.media.streamOpened = c.media.streamOpened) ∧
    ((c.noLockPosition now).1.2.1 = true → (c.noLockPosition now).2.state = .Stopped) ∧
    ((c.noLockPosition now).1.2.1 = true →
      (c.noLockPosition now).2.referencePosition = (c.noLockPosition now).2.duration) := by
  unfold videoOnlyController.noLockPosition
  dsimp only
  by_cases hp : c.state = .Playing
  · rw [if_pos hp]
    by_cases hlt : c.referencePosition +
        ((if now < c.referenceTime then c.referenceTime else now) - c.referenceTime) <
        c.duration
    · rw [if_pos hlt]
      exact ⟨hInv, rfl, fun _ => ⟨rfl, rfl, rfl⟩, (fun h => nomatch h), fun h => nomatch h⟩
    · rw [if_neg hlt]
      by_cases hloop : c.looping = true
      · rw [if_pos hloop]
        have hopen := hInv.2.2 (by rw [hp]; intro h; cases h)
        have hrw : c.media.rewind 0 =
            (none, { c.media with
              cursor := c.media.frames.findIdx (fun o => decide ((0 : Int) ≤ o)) }) := by
          unfold mediaState.rewind
          rw [if_pos ⟨hopen.1, hopen.2⟩]
        rw [hrw]
        dsimp only
        refine ⟨⟨?_, ?_, ?_⟩, rfl, fun _ => ⟨rfl, rfl, rfl⟩, (fun h => nomatch h),
          fun h => nomatch h⟩
        · intro hstop
          rw [hp] at hstop
          cases hstop
        · intro hstop
          rw [hp] at hstop
          cases hstop
        · intro _
          exact ⟨hopen.1, hopen.2⟩
      · rw [if_neg hloop]
        have hns := InvVO_noLockStop c .endOfVideo hInv
        dsimp only
        refine ⟨⟨?_, ?_, ?_⟩, hns.2.2.1, fun h => absurd h (by decide), fun _ => hns.2.1,
          fun _ => rfl⟩
        · intro _
          exact Or.inr rfl
        · intro _
          exact hns.1.2.1 hns.2.1
        · intro hne
          exact absurd hns.2.1 hne
  · rw [if_neg hp]
    exact ⟨hInv, rfl, fun _ => ⟨rfl, rfl, rfl⟩, (fun h => nomatch h), fun h => nomatch h⟩

theorem readVideoFrame_flags (m : mediaState) (r : Option Int × Option goError)
    (m' : mediaState) (h : m.readVideoFrame = (r, m')) :
    m'.decodeOpened = m.decodeOpened ∧ m'.streamOpened = m.streamOpened := by
  unfold mediaState.readVideoFrame at h
  split at h
  · split at h <;> (injection h with h1 h2; rw [← h2]; exact ⟨rfl, rfl⟩)
  · injection h with h1 h2
    rw [← h2]
    exact ⟨rfl, rfl⟩

theorem rewind_flags (m : mediaState) (pos : Int) (e : Option goError)
    (m' : mediaState) (h : m.rewind pos = (e, m')) :
    m'.decodeOpened = m.decodeOpened ∧ m'.streamOpened = m.streamOpened := by
  unfold mediaState.rewind at h
  split at h <;> (injection h with h1 h2; rw [← h2]; exact ⟨rfl, rfl⟩)

theorem rewind_ok_open (m : mediaState) (pos : Int) (m' : mediaState)
    (h : m.rewind pos = (none, m')) :
    m.decodeOpened = true ∧ m.streamOpened = true := by
  unfold mediaState.rewind at h
  split at h
  · rename_i hopen
    exact hopen
  · injection h with h1 h2
    cases h1

theorem InvVO_fields (c c' : videoOnlyController) (hInv : InvVO c)
    (hs : c'.state = c.state) (hr : c'.referencePosition = c.referencePosition)
    (hd : c'.duration = c.duration)
    (h1 : c'.media.decodeOpened = c.media.decodeOpened)
    (h2 : c'.media.streamOpened = c.media.streamOpened) : InvVO c' := by
  obtain ⟨i1, i2, i3⟩ := hInv
  refine ⟨?_, ?_, ?_⟩
  · intro h
    rw [hs] at h
    rw [hr, hd]
    exact i1 h
  · intro h
    rw [hs] at h
    rw [h1, h2]
    exact i2 h
  · intro h
    rw [hs] at h
    rw [h1, h2]
    exact i3 h

theorem InvVO_cvfLoop (fuel : Nat) :
    ∀ (c : videoOnlyController) (now pos prev pres : Int), InvVO c →
      InvVO (c.cvfLoop now pos prev pres fuel).2 ∧
      (c.cvfLoop now pos prev pres fuel).2.duration = c.duration := by
  induction fuel with
  | zero =>
    intro c now pos prev pres hInv
    exact ⟨hInv, rfl⟩
  | succ fuel IH =>
    intro c now pos prev pres hInv
    rw [videoOnlyController.cvfLoop]
    by_cases hcond : pres + c.frameDuration < pos ∨ c.videoPendingLoop = true
    · rw [if_pos hcond]
      split <;> rename_i hif
      · dsimp only
        split <;> rename_i heq
        · rename_i off m'
          have hfl := readVideoFrame_flags _ _ _ heq
          have hi : InvVO
              { c with videoPendingLoop := false, media := m', lastReadFrame := some off } :=
            InvVO_fields c _ hInv rfl rfl rfl hfl.1 hfl.2
          exact ⟨(IH _ now pos pres off hi).1, (IH _ now pos pres off hi).2⟩
        · rename_i m'
          have hfl := readVideoFrame_flags _ _ _ heq
          split
          · split <;> rename_i hrw
            · rename_i e m''
              have hfl2 := rewind_flags _ _ _ _ hrw
              have hi : InvVO { c with videoPendingLoop := false, media := m'' } :=
                InvVO_fields c _ hInv rfl rfl rfl (hfl2.1.trans hfl.1) (hfl2.2.trans hfl.2)
              exact ⟨hi, rfl⟩
            · rename_i m''
              have hopen := rewind_ok_open _ _ _ hrw
              have hfl2 := rewind_flags _ _ _ _ hrw
              dsimp only
              refine ⟨⟨fun _ => Or.inl rfl, fun hstop => ?_, fun hne => ?_⟩, rfl⟩
              · exact absurd (hopen.1.symm.trans (hfl.1.trans (hInv.2.1 hstop).1)) (by decide)
              · exact ⟨hfl2.1.trans hopen.1, hfl2.2.trans hopen.2⟩
          · have hi : InvVO { c with videoPendingLoop := false, media := m' } :=
              InvVO_fields c _ hInv rfl rfl rfl hfl.1 hfl.2
            have hns := InvVO_noLockStop _ stopMode.endOfVideo hi
            exact ⟨hns.1, hns.2.2.1⟩
        · rename_i off e m'
          have hfl := readVideoFrame_flags _ _ _ heq
          have hi : InvVO { c with videoPendingLoop := false, media := m' } :=
            InvVO_fields c _ hInv rfl rfl rfl hfl.1 hfl.2
          exact ⟨hi, rfl⟩
        · rename_i e m'
          have hfl := readVideoFrame_flags _ _ _ heq
          have hi : InvVO { c with videoPendingLoop := false, media := m' } :=
            InvVO_fields c _ hInv rfl rfl rfl hfl.1 hfl.2
          exact ⟨hi, rfl⟩
      · dsimp only
        split <;> rename_i heq
        · rename_i off m'
          have hfl := readVideoFrame_flags _ _ _ heq
          have hi : InvVO { c with media := m', lastReadFrame := some off } :=
            InvVO_fields c _ hInv rfl rfl rfl hfl.1 hfl.2
          exact ⟨(IH _ now pos pres off hi).1, (IH _ now pos pres off hi).2⟩
        · rename_i m'
          have hfl := readVideoFrame_flags _ _ _ heq
          split
          · split <;> rename_i hrw
            · rename_i e m''
              have hfl2 := rewind_flags _ _ _ _ hrw
              have hi : InvVO { c with media := m'' } :=
                InvVO_fields c _ hInv rfl rfl rfl (hfl2.1.trans hfl.1) (hfl2.2.trans hfl.2)
              exact ⟨hi, rfl⟩
            · rename_i m''
              have hopen := rewind_ok_open _ _ _ hrw
              have hfl2 := rewind_flags _ _ _ _ hrw
              dsimp only
              refine ⟨⟨fun _ => Or.inl rfl, fun hstop => ?_, fun hne => ?_⟩, rfl⟩
              · exact absurd (hopen.1.symm.trans (hfl.1.trans (hInv.2.1 hstop).1)) (by decide)
              · exact ⟨hfl2.1.trans hopen.1, hfl2.2.trans hopen.2⟩
          · have hi : InvVO { c with media := m' } :=
              InvVO_fields c _ hInv rfl rfl rfl hfl.1 hfl.2
            have hns := InvVO_noLockStop _ stopMode.endOfVideo hi
            exact ⟨hns.1, hns.2.2.1⟩
        · rename_i off e m'
          have hfl := readVideoFrame_flags _ _ _ heq
          have hi : InvVO { c with media := m' } :=
            InvVO_fields c _ hInv rfl rfl rfl hfl.1 hfl.2
          exact ⟨hi, rfl⟩
        · rename_i e m'
          have hfl := readVideoFrame_flags _ _ _ heq
          have hi : InvVO { c with media := m' } :=
            InvVO_fields c _ hInv rfl rfl rfl hfl.1 hfl.2
          exact ⟨hi, rfl⟩
    · rw [if_neg hcond]
      exact ⟨hInv, rfl⟩

theorem openDecode_cases (m : mediaState) :
    (m.freed = true ∧ m.openDecode = (some .openAfterFree, m)) ∨
    (m.freed = false ∧ m.openDecode = (none, { m with decodeOpened := true })) := by
  unfold mediaState.openDecode
  by_cases h : m.freed = true
  · exact Or.inl ⟨h, by rw [if_pos h]⟩
  · exact Or.inr ⟨by simpa using h, by rw [if_neg h]⟩

theorem openStream_cases (m : mediaState) :
    (m.freed = true ∧ m.openStream = (some .openAfterFree, m)) ∨
    (m.freed = false ∧ m.openStream = (none, { m with streamOpened := true })) := by
  unfold mediaState.openStream
  by_cases h : m.freed = true
  · exact Or.inl ⟨h, by rw [if_pos h]⟩
  · exact Or.inr ⟨by simpa using h, by rw [if_neg h]⟩

theorem InvVO_Play (c : videoOnlyController) (now : Int) (hInv : InvVO c) :
    InvVO (c.Play now).2 := by
  unfold videoOnlyController.Play
  by_cases hp : c.state ≠ .Playing
  · rw [if_pos hp]
    by_cases hs : c.state = .Stopped
    · rw [if_pos hs]
      dsimp only
      rcases openDecode_cases c.media with ⟨hfr, heq⟩ | ⟨hfr, heq⟩
      · rw [heq]
        dsimp only
        exact ⟨fun _ => Or.inl rfl, fun _ => hInv.2.1 hs, fun hne => absurd hs (by
          intro hcontra
          exact hne (hcontra ▸ rfl))⟩
      · rw [heq]
        dsimp only
        rcases openStream_cases { c.media with decodeOpened := true } with ⟨hfr2, heq2⟩ | ⟨hfr2, heq2⟩
        · rw [show ({ c.media with decodeOpened := true } : mediaState).freed = c.media.freed
            from rfl] at hfr2
          rw [hfr] at hfr2
          cases hfr2
        · rw [heq2]
          dsimp only
          refine ⟨?_, ?_, ?_⟩
          · intro h
            cases h
          · intro h
            cases h
          · intro _
            exact ⟨rfl, rfl⟩
    · rw [if_neg hs]
      dsimp only
      refine ⟨?_, ?_, ?_⟩
      · intro h
        cases h
      · intro h
        cases h
      · intro _
        exact hInv.2.2 hs
  · rw [if_neg hp]
    exact hInv

theorem InvVO_Pause (c : videoOnlyController) (now : Int) (hInv : InvVO c) :
    InvVO (c.Pause now).2 := by
  unfold videoOnlyController.Pause
  by_cases hp : c.state ≠ .Playing
  · rw [if_pos hp]
    exact hInv
  · rw [if_neg hp]
    have hnp := InvVO_noLockPosition c now hInv
    split <;> rename_i heq
    · exact (heq ▸ hnp.1 : InvVO _)
    · rename_i position ended
      split <;> rename_i hended
      · exact (heq ▸ hnp.1 : InvVO _)
      · have hst := (hnp.2.2.1 (by rw [heq]; simpa using hended))
        have hInv' : InvVO (c.noLockPosition now).2 := hnp.1
        rw [heq] at hst hInv'
        have hopen := hInv'.2.2 (by
          rw [hst.1]
          simp at hp
          rw [hp]
          intro hx
          cases hx)
        refine ⟨?_, ?_, ?_⟩
        · intro h
          cases h
        · intro h
          cases h
        · intro _
          exact hopen

theorem InvVO_Stop (c : videoOnlyController) (hInv : InvVO c) : InvVO c.Stop.2 :=
  (InvVO_noLockStop c .manual hInv).1

theorem InvVO_Close (c : videoOnlyController) (hInv : InvVO c) : InvVO c.Close.2 := by
  unfold videoOnlyController.Close
  have hns := InvVO_noLockStop c .manual hInv
  split <;> rename_i heq
  · have h1 := hns.1
    rw [heq] at h1
    exact h1
  · rename_i c'
    have hInv' : InvVO c' := by
      have h1 := hns.1
      rw [heq] at h1
      exact h1
    exact InvVO_fields c' _ hInv' rfl rfl rfl rfl rfl

theorem InvVO_Seek (c : videoOnlyController) (pos now : Int) (hInv : InvVO c) :
    InvVO (c.Seek pos now).2 := by
  unfold videoOnlyController.Seek
  by_cases hge : c.duration ≤ pos
  · rw [if_pos hge]
    dsimp only
    exact (InvVO_noLockStop c .manual hInv).1
  · rw [if_neg hge]
    dsimp only
    split <;> rename_i hrw
    · rename_i e m'
      have hfl := rewind_flags _ _ _ _ hrw
      exact InvVO_fields c _ hInv rfl rfl rfl hfl.1 hfl.2
    · rename_i m'
      have hopen := rewind_ok_open _ _ _ hrw
      have hfl := rewind_flags _ _ _ _ hrw
      have hnsstop : c.state ≠ .Stopped := by
        intro hstop
        exact absurd (hopen.1.symm.trans (hInv.2.1 hstop).1) (by decide)
      split <;> rename_i hread
      · rename_i f e m''
        have hfl2 := readVideoFrame_flags _ _ _ hread
        exact InvVO_fields c _ hInv rfl rfl rfl (hfl2.1.trans hfl.1) (hfl2.2.trans hfl.2)
      · rename_i f m''
        have hfl2 := readVideoFrame_flags _ _ _ hread
        refine ⟨?_, ?_, ?_⟩
        · intro h
          exact absurd h hnsstop
        · intro h
          exact absurd h hnsstop
        · intro _
          exact ⟨(hfl2.1.trans hfl.1).trans hopen.1, (hfl2.2.trans hfl.2).trans hopen.2⟩

theorem InvVO_CurrentVideoFrame (c : videoOnlyController) (now : Int) (hInv : InvVO c) :
    InvVO (c.CurrentVideoFrame now).2 := by
  unfold videoOnlyController.CurrentVideoFrame
  by_cases hs : c.state = .Stopped
  · rw [if_pos hs]
    exact hInv
  · rw [if_neg hs]
    have hnp := InvVO_noLockPosition c now hInv
    split <;> rename_i heq
    · have h1 := hnp.1
      rw [heq] at h1
      exact h1
    · have h1 := hnp.1
      rw [heq] at h1
      exact h1
    · rename_i position c'
      have hInv' : InvVO c' := by
        have h1 := hnp.1
        rw [heq] at h1
        exact h1
      split
      · exact (InvVO_cvfLoop (c'.media.frames.length - c'.media.cursor + 1) c' now position
          _ _ hInv').1
      · exact (InvVO_cvfLoop (c'.media.frames.length - c'.media.cursor + 1) c' now position
          0 0 hInv').1

theorem InvVO_Position (c : videoOnlyController) (now : Int) (hInv : InvVO c) :
    InvVO (c.Position now).2 := by
  unfold videoOnlyController.Position
  have hnp := InvVO_noLockPosition c now hInv
  split <;> rename_i heq
  have h1 := hnp.1
  rw [heq] at h1
  exact h1

theorem InvVO_StateQuery (c : videoOnlyController) (now : Int) (hInv : InvVO c) :
    InvVO (c.StateQuery now).2 := by
  unfold videoOnlyController.StateQuery
  have hnp := InvVO_noLockPosition c now hInv
  split <;> rename_i heq
  · have h1 := hnp.1
    rw [heq] at h1
    exact h1
  · have h1 := hnp.1
    rw [heq] at h1
    exact h1

/-- States of the video-only controller reachable from construction through
its public operations. -/
inductive reachVO : videoOnlyController → Prop where
  | init (media : mediaState) (frNum frDenom streamDuration now : Int)
      (hdec : media.decodeOpened = false) (hstr : media.streamOpened = false) :
      reachVO (newVideoOnlyController media frNum frDenom streamDuration now)
  | play (c : videoOnlyController) (now : Int) : reachVO c → reachVO (c.Play now).2
  | pause (c : videoOnlyController) (now : Int) : reachVO c → reachVO (c.Pause now).2
  | stop (c : videoOnlyController) : reachVO c → reachVO c.Stop.2
  | close (c : videoOnlyController) : reachVO c → reachVO c.Close.2
  | seek (c : videoOnlyController) (pos now : Int) : reachVO c → reachVO (c.Seek pos now).2
  | cvf (c : videoOnlyController) (now : Int) : reachVO c → reachVO (c.CurrentVideoFrame now).2
  | positionQ (c : videoOnlyController) (now : Int) : reachVO c → reachVO (c.Position now).2
  | stateQ (c : videoOnlyController) (now : Int) : reachVO c → reachVO (c.StateQuery now).2
  | setLooping (c : videoOnlyController) (b : Bool) : reachVO c → reachVO (c.SetLooping b)

theorem reachVO_inv (c : videoOnlyController) (h : reachVO c) : InvVO c := by
  induction h with
  | init media frNum frDenom streamDuration now hdec hstr =>
    exact ⟨fun _ => Or.inl rfl, fun _ => ⟨hdec, hstr⟩, fun hne => absurd rfl hne⟩
  | play c now hr IH => exact InvVO_Play c now IH
  | pause c now hr IH => exact InvVO_Pause c now IH
  | stop c hr IH => exact InvVO_Stop c IH
  | close c hr IH => exact InvVO_Close c IH
  | seek c pos now hr IH => exact InvVO_Seek c pos now IH
  | cvf c now hr IH => exact InvVO_CurrentVideoFrame c now IH
  | positionQ c now hr IH => exact InvVO_Position c now IH
  | stateQ c now hr IH => exact InvVO_StateQuery c now IH
  | setLooping c b hr IH => exact InvVO_fields c _ IH rfl rfl rfl rfl rfl

/-- The C4 invariant for the audio-driven controller: while `Stopped` the
manual position is pinned to `0` or the duration, the ebitengine audio player
has been dropped, and the media handles are closed; while not `Stopped` the
handles are open. -/
def InvAV (c : videoWithAudioController) : Prop :=
  (c.state = .Stopped → (c.staticPosition = 0 ∨ c.staticPosition = c.duration)) ∧
  (c.state = .Stopped → c.audioPlayer = none) ∧
  (c.state = .Stopped → c.media.decodeOpened = false ∧ c.media.videoOpened = false ∧
    c.media.audioOpened = false) ∧
  (c.state ≠ .Stopped → c.media.decodeOpened = true ∧ c.media.videoOpened = true ∧
    c.media.audioOpened = true)

theorem InvAV_fields (c c' : videoWithAudioController) (hInv : InvAV c)
    (hs : c'.state = c.state) (hr : c'.staticPosition = c.staticPosition)
    (hd : c'.duration = c.duration) (hap : c'.audioPlayer = c.audioPlayer)
    (h1 : c'.media.decodeOpened = c.media.decodeOpened)
    (h2 : c'.media.videoOpened = c.media.videoOpened)
    (h3 : c'.media.audioOpened = c.media.audioOpened) : InvAV c' := by
  obtain ⟨i1, i2, i3, i4⟩ := hInv
  refine ⟨?_, ?_, ?_, ?_⟩
  · intro h
    rw [hs] at h
    rw [hr, hd]
    exact i1 h
  · intro h
    rw [hs] at h
    rw [hap]
    exact i2 h
  · intro h
    rw [hs] at h
    rw [h1, h2, h3]
    exact i3 h
  · intro h
    rw [hs] at h
    rw [h1, h2, h3]
    exact i4 h

theorem InvAV_noLockStop (c : videoWithAudioController) (m : stopMode) (hInv : InvAV c) :
    InvAV (c.noLockStop m).2 ∧ (c.noLockStop m).2.state = .Stopped ∧
    (c.noLockStop m).2.duration = c.duration ∧
    (m = .manual → (c.noLockStop m).2.staticPosition = 0) ∧
    (m = .endOfVideo → c.state ≠ .Stopped →
      (c.noLockStop m).2.staticPosition = c.duration) := by
  obtain ⟨h1, h2, h3, h4⟩ := hInv
  unfold videoWithAudioController.noLockStop videoWithAudioController.noLockEnsureAudioHalt
  by_cases hs : c.state = .Stopped
  · obtain ⟨hdec, hvid, haud⟩ := h3 hs
    cases m with
    | manual => simp [InvAV, hs, hdec, hvid, haud]
    | endOfVideo => simp [InvAV, hs, hdec, hvid, haud, h1 hs, h2 hs]
  · have hopen := h4 hs
    cases m with
    | manual =>
      simp [InvAV, hs, hopen.1, hopen.2.1, hopen.2.2, avMediaState.rewindVideoStream,
        avMediaState.rewindAudioStream, avMediaState.closeVideoStream,
        avMediaState.closeAudioStream, avMediaState.closeDecode]
    | endOfVideo =>
      simp [InvAV, hs, hopen.1, hopen.2.1, hopen.2.2, avMediaState.rewindVideoStream,
        avMediaState.rewindAudioStream, avMediaState.closeVideoStream,
        avMediaState.closeAudioStream, avMediaState.closeDecode]

theorem InvAV_noLockPosition (c : videoWithAudioController) (hInv : InvAV c) :
    InvAV c.noLockPosition.2 ∧
    c.noLockPosition.2.duration = c.duration ∧
    (c.noLockPosition.1.2.1 = false → c.noLockPosition.2 = c) ∧
    (c.noLockPosition.1.2.1 = true → c.noLockPosition.2.state = .Stopped) ∧
    (c.noLockPosition.1.2.1 = true →
      c.noLockPosition.2.staticPosition = c.noLockPosition.2.duration) := by
  unfold videoWithAudioController.noLockPosition
  split <;> rename_i hap
  · exact ⟨hInv, rfl, fun _ => rfl, (fun h => nomatch h), fun h => nomatch h⟩
  · rename_i p
    by_cases hnf : c.needsFirstAudioFrameOffset = true
    · rw [if_pos hnf]
      exact ⟨hInv, rfl, fun _ => rfl, (fun h => nomatch h), fun h => nomatch h⟩
    · rw [if_neg hnf]
      dsimp only
      by_cases hlt : c.firstAudioFrameOffsetOnPlay + p.pos < c.duration
      · rw [if_pos hlt]
        exact ⟨hInv, rfl, fun _ => rfl, (fun h => nomatch h), fun h => nomatch h⟩
      · rw [if_neg hlt]
        have hns := InvAV_noLockStop c .endOfVideo hInv
        have hsne : c.state ≠ .Stopped := by
          intro h
          rw [hInv.2.1 h] at hap
          cases hap
        refine ⟨hns.1, hns.2.2.1, (fun h => nomatch h), fun _ => hns.2.1, fun _ => ?_⟩
        rw [hns.2.2.1]
        exact hns.2.2.2.2 rfl hsne

theorem InvAV_Play (c : videoWithAudioController) (hInv : InvAV c) : InvAV c.Play.2 := by
  unfold videoWithAudioController.Play
  by_cases hp : c.state ≠ .Playing
  · rw [if_pos hp]
    by_cases hs : c.state = .Stopped
    · have hap := hInv.2.1 hs
      by_cases hfr : c.media.freed = true
      · simp only [if_pos hs, avMediaState.openDecode, hfr, if_pos]
        exact InvAV_fields c _ hInv rfl rfl rfl rfl rfl rfl rfl
      · simp only [Bool.not_eq_true] at hfr
        simp only [if_pos hs, avMediaState.openDecode, avMediaState.openVideoStream,
          avMediaState.openAudioStream, hfr, Bool.false_eq_true, if_neg,
          videoWithAudioController.noLockCreateAudioPlayer, hap]
        refine ⟨?_, ?_, ?_, ?_⟩
        · intro h
          cases h
        · intro h
          cases h
        · intro h
          cases h
        · intro _
          exact ⟨rfl, rfl, rfl⟩
    · have hopen := hInv.2.2.2 hs
      rw [if_neg hs]
      dsimp only
      by_cases hap : c.audioPlayer = none
      · simp only [hap, if_pos]
        refine ⟨?_, ?_, ?_, ?_⟩
        · intro h
          cases h
        · intro h
          cases h
        · intro h
          cases h
        · intro _
          exact hopen
      · simp only [hap, if_neg, if_false]
        refine ⟨?_, ?_, ?_, ?_⟩
        · intro h
          cases h
        · intro h
          cases h
        · intro h
          cases h
        · intro _
          exact hopen
  · rw [if_neg hp]
    exact hInv

theorem InvAV_Pause (c : videoWithAudioController) (hInv : InvAV c) : InvAV c.Pause.2 := by
  unfold videoWithAudioController.Pause
  by_cases hp : c.state ≠ .Playing
  · rw [if_pos hp]
    exact hInv
  · rw [if_neg hp]
    have hnp := InvAV_noLockPosition c hInv
    split <;> rename_i heq
    · have h1 := hnp.1
      rw [heq] at h1
      exact h1
    · rename_i position ended c'
      split <;> rename_i hended
      · have h1 := hnp.1
        rw [heq] at h1
        exact h1
      · have hid := hnp.2.2.1 (by rw [heq]; simpa using hended)
        rw [heq] at hid
        subst hid
        simp only [Classical.not_not] at hp
        have hopen := hInv.2.2.2 (by rw [hp]; intro hx; cases hx)
        refine ⟨?_, ?_, ?_, ?_⟩
        · intro h
          cases h
        · intro h
          cases h
        · intro h
          cases h
        · intro _
          exact hopen

theorem InvAV_Stop (c : videoWithAudioController) (hInv : InvAV c) : InvAV c.Stop.2 :=
  (InvAV_noLockStop c .manual hInv).1

theorem InvAV_Close (c : videoWithAudioController) (hInv : InvAV c) : InvAV c.Close.2 := by
  unfold videoWithAudioController.Close
  have hns := InvAV_noLockStop c .manual hInv
  split <;> rename_i heq
  · have h1 := hns.1
    rw [heq] at h1
    exact h1
  · rename_i c'
    have hInv' : InvAV c' := by
      have h1 := hns.1
      rw [heq] at h1
      exact h1
    exact InvAV_fields c' _ hInv' rfl rfl rfl rfl rfl rfl rfl

theorem InvAV_Position (c : videoWithAudioController) (hInv : InvAV c) :
    InvAV c.Position.2 := by
  unfold videoWithAudioController.Position
  have hnp := InvAV_noLockPosition c hInv
  split <;> rename_i heq
  have h1 := hnp.1
  rw [heq] at h1
  exact h1

theorem InvAV_StateQuery (c : videoWithAudioController) (hInv : InvAV c) :
    InvAV c.StateQuery.2 := by
  unfold videoWithAudioController.StateQuery
  have hnp := InvAV_noLockPosition c hInv
  split <;> rename_i heq
  · have h1 := hnp.1
    rw [heq] at h1
    exact h1
  · have h1 := hnp.1
    rw [heq] at h1
    exact h1

theorem InvAV_advanceAudioPlayer (c : videoWithAudioController) (d : Int) (hInv : InvAV c) :
    InvAV (c.advanceAudioPlayer d) := by
  refine ⟨hInv.1, fun h => ?_, hInv.2.2.1, hInv.2.2.2⟩
  show (c.audioPlayer.map _) = none
  rw [hInv.2.1 h]
  rfl

theorem InvAV_CurrentVideoFrame (c : videoWithAudioController) (hInv : InvAV c) :
    InvAV c.CurrentVideoFrame.2 := by
  unfold videoWithAudioController.CurrentVideoFrame
  by_cases hs : c.state = .Stopped
  · rw [if_pos hs]
    exact hInv
  · rw [if_neg hs]
    have hnp := InvAV_noLockPosition c hInv
    split <;> rename_i heq
    · have h1 := hnp.1
      rw [heq] at h1
      exact h1
    · rename_i c'
      have hInv' : InvAV c' := by
        have h1 := hnp.1
        rw [heq] at h1
        exact h1
      split
      · exact InvAV_fields c' _ hInv' rfl rfl rfl rfl rfl rfl rfl
      · exact hInv'
    · rename_i position c'
      have hInv' : InvAV c' := by
        have h1 := hnp.1
        rw [heq] at h1
        exact h1
      split
      · dsimp only
        exact InvAV_fields c' _ hInv' rfl rfl rfl rfl rfl rfl rfl
      · dsimp only
        exact InvAV_fields c' _ hInv' rfl rfl rfl rfl rfl rfl rfl

theorem readAudioLoop_fields (fuel : Nat) :
    ∀ c : videoWithAudioController,
      (c.readAudioLoop fuel).state = c.state ∧
      (c.readAudioLoop fuel).staticPosition = c.staticPosition ∧
      (c.readAudioLoop fuel).duration = c.duration ∧
      (c.readAudioLoop fuel).audioPlayer = c.audioPlayer ∧
      (c.readAudioLoop fuel).looping = c.looping ∧
      (c.readAudioLoop fuel).media.decodeOpened = c.media.decodeOpened ∧
      (c.readAudioLoop fuel).media.videoOpened = c.media.videoOpened ∧
      (c.readAudioLoop fuel).media.audioOpened = c.media.audioOpened := by
  induction fuel with
  | zero =>
    intro c
    exact ⟨rfl, rfl, rfl, rfl, rfl, rfl, rfl, rfl⟩
  | succ fuel IH =>
    intro c
    show _ ∧ _ ∧ _ ∧ _ ∧ _ ∧ _ ∧ _ ∧ _
    unfold videoWithAudioController.readAudioLoop
    split
    · exact ⟨rfl, rfl, rfl, rfl, rfl, rfl, rfl, rfl⟩
    · exact IH _
    · exact IH _
    · dsimp only
      split
      · exact ⟨rfl, rfl, rfl, rfl, rfl, rfl, rfl, rfl⟩
      · exact ⟨rfl, rfl, rfl, rfl, rfl, rfl, rfl, rfl⟩

theorem internalReadAudioFrame_fields (c : videoWithAudioController) :
    c.internalReadAudioFrame.2.state = c.state ∧
    c.internalReadAudioFrame.2.staticPosition = c.staticPosition ∧
    c.internalReadAudioFrame.2.duration = c.duration ∧
    c.internalReadAudioFrame.2.audioPlayer = c.audioPlayer ∧
    c.internalReadAudioFrame.2.looping = c.looping ∧
    c.internalReadAudioFrame.2.media.decodeOpened = c.media.decodeOpened ∧
    c.internalReadAudioFrame.2.media.videoOpened = c.media.videoOpened ∧
    c.internalReadAudioFrame.2.media.audioOpened = c.media.audioOpened := by
  unfold videoWithAudioController.internalReadAudioFrame
  split
  · exact readAudioLoop_fields _ c
  · exact ⟨rfl, rfl, rfl, rfl, rfl, rfl, rfl, rfl⟩

theorem internalReadAudioFrame_err (c : videoWithAudioController) (e : goError)
    (c1 : videoWithAudioController) (h : c.internalReadAudioFrame = (some e, c1)) :
    c1 = c := by
  unfold videoWithAudioController.internalReadAudioFrame at h
  split at h
  · injection h with h1 h2
    cases h1
  · injection h with h1 h2
    exact h2.symm

theorem internalReadAudioFrame_ok_open (c : videoWithAudioController)
    (c1 : videoWithAudioController) (h : c.internalReadAudioFrame = (none, c1)) :
    c.media.decodeOpened = true ∧ c.media.videoOpened = true ∧
      c.media.audioOpened = true := by
  unfold videoWithAudioController.internalReadAudioFrame at h
  split at h
  · rename_i hopen
    exact hopen
  · injection h with h1 h2
    cases h1

theorem noLockCopyLeftoverAudio_fields (c : videoWithAudioController) (bufferLen : Nat) :
    (c.noLockCopyLeftoverAudio bufferLen).2.state = c.state ∧
    (c.noLockCopyLeftoverAudio bufferLen).2.staticPosition = c.staticPosition ∧
    (c.noLockCopyLeftoverAudio bufferLen).2.duration = c.duration ∧
    (c.noLockCopyLeftoverAudio bufferLen).2.audioPlayer = c.audioPlayer ∧
    (c.noLockCopyLeftoverAudio bufferLen).2.media.decodeOpened = c.media.decodeOpened ∧
    (c.noLockCopyLeftoverAudio bufferLen).2.media.videoOpened = c.media.videoOpened ∧
    (c.noLockCopyLeftoverAudio bufferLen).2.media.audioOpened = c.media.audioOpened := by
  unfold videoWithAudioController.noLockCopyLeftoverAudio
  dsimp only
  split
  · exact ⟨rfl, rfl, rfl, rfl, rfl, rfl, rfl⟩
  · exact ⟨rfl, rfl, rfl, rfl, rfl, rfl, rfl⟩

theorem rewindAudioStream_fields (m : avMediaState) (e : Option goError) (m' : avMediaState)
    (h : m.rewindAudioStream = (e, m')) :
    m'.decodeOpened = m.decodeOpened ∧ m'.videoOpened = m.videoOpened ∧
      m'.audioOpened = m.audioOpened := by
  unfold avMediaState.rewindAudioStream at h
  split at h <;> (injection h with h1 h2; rw [← h2]; exact ⟨rfl, rfl, rfl⟩)

theorem rewindVideoStream_fields (m : avMediaState) (e : Option goError) (m' : avMediaState)
    (h : m.rewindVideoStream = (e, m')) :
    m'.decodeOpened = m.decodeOpened ∧ m'.videoOpened = m.videoOpened ∧
      m'.audioOpened = m.audioOpened := by
  unfold avMediaState.rewindVideoStream at h
  split at h <;> (injection h with h1 h2; rw [← h2]; exact ⟨rfl, rfl, rfl⟩)

theorem noLockRewindForLooping_fields (c : videoWithAudioController) (e : Option goError)
    (c' : videoWithAudioController) (h : c.noLockRewindForLooping = (e, c')) :
    c'.state = c.state ∧ c'.staticPosition = c.staticPosition ∧ c'.duration = c.duration ∧
    c'.audioPlayer = c.audioPlayer ∧ c'.media.decodeOpened = c.media.decodeOpened ∧
    c'.media.videoOpened = c.media.videoOpened ∧
    c'.media.audioOpened = c.media.audioOpened := by
  unfold videoWithAudioController.noLockRewindForLooping at h
  split at h <;> rename_i h1
  · injection h with ha hb
    have hf := rewindAudioStream_fields _ _ _ h1
    rw [← hb]
    exact ⟨rfl, rfl, rfl, rfl, hf.1, hf.2.1, hf.2.2⟩
  · rename_i m1
    have hf1 := rewindAudioStream_fields _ _ _ h1
    split at h <;> rename_i h2
    · injection h with ha hb
      have hf2 := rewindVideoStream_fields _ _ _ h2
      rw [← hb]
      exact ⟨rfl, rfl, rfl, rfl, hf2.1.trans hf1.1, hf2.2.1.trans hf1.2.1,
        hf2.2.2.trans hf1.2.2⟩
    · rename_i m2
      injection h with ha hb
      have hf2 := rewindVideoStream_fields _ _ _ h2
      rw [← hb]
      exact ⟨rfl, rfl, rfl, rfl, hf2.1.trans hf1.1, hf2.2.1.trans hf1.2.1,
        hf2.2.2.trans hf1.2.2⟩

theorem InvAV_readLoop (fuel : Nat) :
    ∀ (c : videoWithAudioController) (bufferLen served : Nat), InvAV c →
      InvAV (c.readLoop bufferLen served fuel).2 := by
  induction fuel with
  | zero =>
    intro c bufferLen served hInv
    exact hInv
  | succ fuel IH =>
    intro c bufferLen served hInv
    show InvAV (videoWithAudioController.readLoop c bufferLen served (fuel + 1)).2
    unfold videoWithAudioController.readLoop
    by_cases hb : bufferLen = 0
    · rw [if_pos hb]
      exact hInv
    · rw [if_neg hb]
      split <;> rename_i hir
      · rename_i e c1
        rw [internalReadAudioFrame_err c e c1 hir]
        exact hInv
      · rename_i c1
        have hopen := internalReadAudioFrame_ok_open c c1 hir
        have hflds := internalReadAudioFrame_fields c
        rw [hir] at hflds
        have hInv1 : InvAV c1 := InvAV_fields c c1 hInv hflds.1 hflds.2.1 hflds.2.2.1
          hflds.2.2.2.1 hflds.2.2.2.2.2.1 hflds.2.2.2.2.2.2.1 hflds.2.2.2.2.2.2.2
        have hd1 : c1.media.decodeOpened = true := hflds.2.2.2.2.2.1.trans hopen.1
        have hv1 : c1.media.videoOpened = true := hflds.2.2.2.2.2.2.1.trans hopen.2.1
        have ha1 : c1.media.audioOpened = true := hflds.2.2.2.2.2.2.2.trans hopen.2.2
        have hns1 : c1.state ≠ .Stopped := by
          intro h
          exact absurd ((hInv1.2.2.1 h).1.symm.trans hd1) (by decide)
        by_cases hla : c1.leftoverAudio.length = 0
        · rw [if_pos hla]
          dsimp only
          have hInv2 : InvAV { c1 with audioPlayer := none } :=
            ⟨hInv1.1, fun _ => rfl, hInv1.2.2.1, hInv1.2.2.2⟩
          by_cases hlp : c1.looping = true
          · rw [if_pos hlp]
            split <;> rename_i hrw
            · rename_i e c3
              have hf3 := noLockRewindForLooping_fields _ _ _ hrw
              exact InvAV_fields _ c3 hInv2 hf3.1 hf3.2.1 hf3.2.2.1 hf3.2.2.2.1
                hf3.2.2.2.2.1 hf3.2.2.2.2.2.1 hf3.2.2.2.2.2.2
            · rename_i c3
              have hf3 := noLockRewindForLooping_fields _ _ _ hrw
              have hns3 : c3.state ≠ .Stopped := by
                rw [hf3.1]
                exact hns1
              refine ⟨fun h => absurd h hns3, fun h => absurd h hns3,
                fun h => absurd h hns3, fun _ => ?_⟩
              exact ⟨hf3.2.2.2.2.1.trans hd1, hf3.2.2.2.2.2.1.trans hv1,
                hf3.2.2.2.2.2.2.trans ha1⟩
          · rw [if_neg hlp]
            have hns := InvAV_noLockStop { c1 with audioPlayer := none } .endOfVideo hInv2
            split <;> rename_i hstop
            · have h1 := hns.1
              rw [hstop] at h1
              exact h1
            · have h1 := hns.1
              rw [hstop] at h1
              exact h1
        · rw [if_neg hla]
          split <;> rename_i copied c2 hcp
          have hf2 := noLockCopyLeftoverAudio_fields c1 bufferLen
          rw [hcp] at hf2
          have hInv2 : InvAV c2 := InvAV_fields c1 c2 hInv1 hf2.1 hf2.2.1 hf2.2.2.1
            hf2.2.2.2.1 hf2.2.2.2.2.1 hf2.2.2.2.2.2.1 hf2.2.2.2.2.2.2
          exact IH c2 (bufferLen - copied) (served + copied) hInv2

theorem InvAV_Read (p : Bool) (c : videoWithAudioController) (bufferLen : Nat)
    (hInv : InvAV c) : InvAV (videoWithAudioController.Read p c bufferLen).2 := by
  unfold videoWithAudioController.Read
  dsimp only
  split
  · exact hInv
  · rename_i n hn
    by_cases hlo : 0 < c.leftoverAudio.length
    · rw [if_pos hlo]
      have hf := noLockCopyLeftoverAudio_fields c n
      have hInv1 : InvAV (c.noLockCopyLeftoverAudio n).2 :=
        InvAV_fields c _ hInv hf.1 hf.2.1 hf.2.2.1 hf.2.2.2.1 hf.2.2.2.2.1
          hf.2.2.2.2.2.1 hf.2.2.2.2.2.2
      split
      · exact hInv1
      · exact InvAV_readLoop _ _ _ _ hInv1
    · rw [if_neg hlo]
      split
      · exact hInv
      · exact InvAV_readLoop _ _ _ _ hInv

/-- States of the audio-driven controller reachable from a successful
construction through its public operations, the pull-based `Read` callback
and the ebitengine audio-consumption environment step. -/
inductive reachAV : videoWithAudioController → Prop where
  | init (rate : Option Int) (v : videoStreamInfo) (a : audioStreamInfo)
      (media : avMediaState) (c : videoWithAudioController)
      (hdec : media.decodeOpened = false) (hvid : media.videoOpened = false)
      (haud : media.audioOpened = false)
      (h : newVideoWithAudioController rate v a media = .ok c) : reachAV c
  | play (c : videoWithAudioController) : reachAV c → reachAV c.Play.2
  | pause (c : videoWithAudioController) : reachAV c → reachAV c.Pause.2
  | stop (c : videoWithAudioController) : reachAV c → reachAV c.Stop.2
  | close (c : videoWithAudioController) : reachAV c → reachAV c.Close.2
  | positionQ (c : videoWithAudioController) : reachAV c → reachAV c.Position.2
  | stateQ (c : videoWithAudioController) : reachAV c → reachAV c.StateQuery.2
  | setLooping (c : videoWithAudioController) (b : Bool) : reachAV c → reachAV (c.SetLooping b)
  | setMuted (c : videoWithAudioController) (b : Bool) : reachAV c → reachAV (c.SetMuted b)
  | advance (c : videoWithAudioController) (d : Int) : reachAV c →
      reachAV (c.advanceAudioPlayer d)
  | read (c : videoWithAudioController) (p : Bool) (bufferLen : Nat) : reachAV c →
      reachAV (videoWithAudioController.Read p c bufferLen).2
  | cvf (c : videoWithAudioController) : reachAV c → reachAV c.CurrentVideoFrame.2

theorem reachAV_inv (c : videoWithAudioController) (h : reachAV c) : InvAV c := by
  induction h with
  | init rate v a media c hdec hvid haud h =>
    unfold newVideoWithAudioController at h
    split at h
    · cases h
    · rename_i ctxRate
      split at h
      · cases h
      · injection h with h
        rw [← h]
        exact ⟨fun _ => Or.inl rfl, fun _ => rfl, fun _ => ⟨hdec, hvid, haud⟩,
          fun hne => absurd rfl hne⟩
  | play c hr IH => exact InvAV_Play c IH
  | pause c hr IH => exact InvAV_Pause c IH
  | stop c hr IH => exact InvAV_Stop c IH
  | close c hr IH => exact InvAV_Close c IH
  | positionQ c hr IH => exact InvAV_Position c IH
  | stateQ c hr IH => exact InvAV_StateQuery c IH
  | setLooping c b hr IH => exact InvAV_fields c _ IH rfl rfl rfl rfl rfl rfl rfl
  | setMuted c b hr IH => exact InvAV_fields c _ IH rfl rfl rfl rfl rfl rfl rfl
  | advance c d hr IH => exact InvAV_advanceAudioPlayer c d IH
  | read c p bufferLen hr IH => exact InvAV_Read p c bufferLen IH
  | cvf c hr IH => exact InvAV_CurrentVideoFrame c IH

theorem av_Position_stopped (c : videoWithAudioController) (hap : c.audioPlayer = none) :
    c.Position.1 = (c.staticPosition, none) := by
  simp [videoWithAudioController.Position, videoWithAudioController.noLockPosition, hap]

def voFresh4 : videoOnlyController := newVideoOnlyController voFreshMedia 25 1 10000 0

def avNatMedia : avMediaState :=
  { packets := [.audio 0 [1, 2, 3, 4]], cursor := 0, freed := false, decodeOpened := false,
    videoOpened := false, audioOpened := false }

def avFresh4 : videoWithAudioController :=
  { media := avNatMedia, duration := 10000, frameDuration := 40000000, looping := false,
    videoPendingLoop := false, muted := false, state := .Stopped, lastReadFrame := none,
    leftoverVideo := [], audioPlayer := none, leftoverAudio := [],
    firstAudioFrameOffsetOnPlay := 0, needsFirstAudioFrameOffset := false,
    staticPosition := 0 }

/-- The audio-driven controller after `Play()`, a 4-byte `Read` (which records
the first audio frame offset) and the ebitengine player consuming past the end
of the media: the next state query performs the natural end-of-video stop. -/
def avNat4 : videoWithAudioController :=
  ((videoWithAudioController.Read false avFresh4.Play.2 4).2).advanceAudioPlayer 20000

/-- C4: in every reachable state of either file-backed controller whose
playback state is `Stopped`, `Position()` reports `0` or the duration; a
manual `Stop()` pins the position to `0`, and a natural end-of-stream stop
(a `State()` query on a non-stopped controller that reports `Stopped`) pins
the stored position to the duration. -/
theorem c4_theorem :
    (∀ (c : videoOnlyController) (now : Int), reachVO c → c.state = .Stopped →
      (c.Position now).1.1 = 0 ∨ (c.Position now).1.1 = c.duration) ∧
    (∀ c : videoWithAudioController, reachAV c → c.state = .Stopped →
      c.Position.1.1 = 0 ∨ c.Position.1.1 = c.duration) ∧
    (∀ (c : videoOnlyController) (now : Int), reachVO c →
      (c.Stop.2.Position now).1.1 = 0) ∧
    (∀ c : videoWithAudioController, reachAV c → c.Stop.2.Position.1.1 = 0) ∧
    (∀ (c : videoOnlyController) (now : Int), reachVO c → c.state ≠ .Stopped →
      (c.StateQuery now).1.1 = some .Stopped →
      (c.StateQuery now).2.referencePosition = (c.StateQuery now).2.duration) ∧
    (∀ c : videoWithAudioController, reachAV c → c.state ≠ .Stopped →
      c.StateQuery.1.1 = some .Stopped →
      c.StateQuery.2.staticPosition = c.StateQuery.2.duration) := by
  refine ⟨?_, ?_, ?_, ?_, ?_, ?_⟩
  · intro c now hr hs
    have hInv := reachVO_inv c hr
    have hp := congrArg Prod.fst (videoOnlyController.Position_stopped c now hs)
    rw [hp]
    exact hInv.1 hs
  · intro c hr hs
    have hInv := reachAV_inv c hr
    have hp := congrArg Prod.fst (av_Position_stopped c (hInv.2.1 hs))
    rw [hp]
    exact hInv.1 hs
  · intro c now hr
    have hInv := reachVO_inv c hr
    have hns := InvVO_noLockStop c .manual hInv
    have hp := congrArg Prod.fst
      (videoOnlyController.Position_stopped c.Stop.2 now hns.2.1)
    rw [hp]
    exact hns.2.2.2.1 rfl
  · intro c hr
    have hInv := reachAV_inv c hr
    have hns := InvAV_noLockStop c .manual hInv
    have hp := congrArg Prod.fst
      (av_Position_stopped c.Stop.2 (hns.1.2.1 hns.2.1))
    rw [hp]
    exact hns.2.2.2.1 rfl
  · intro c now hr hne
    have hInv := reachVO_inv c hr
    have hnp := InvVO_noLockPosition c now hInv
    unfold videoOnlyController.StateQuery
    split <;> rename_i heq
    · intro hsq
      cases hsq
    · rename_i x ended c'
      intro hsq
      have hst : c'.state = PlaybackState.Stopped := Option.some.inj hsq
      by_cases hend : ended = true
      · have h5 := hnp.2.2.2.2 (by rw [heq]; exact hend)
        rw [heq] at h5
        exact h5
      · simp only [Bool.not_eq_true] at hend
        have h3 := hnp.2.2.1 (by rw [heq]; exact hend)
        rw [heq] at h3
        rw [h3.1] at hst
        exact absurd hst hne
  · intro c hr hne
    have hInv := reachAV_inv c hr
    have hnp := InvAV_noLockPosition c hInv
    unfold videoWithAudioController.StateQuery
    split <;> rename_i heq
    · intro hsq
      cases hsq
    · rename_i x ended c'
      intro hsq
      have hst : c'.state = PlaybackState.Stopped := Option.some.inj hsq
      by_cases hend : ended = true
      · have h5 := hnp.2.2.2.2 (by rw [heq]; exact hend)
        rw [heq] at h5
        exact h5
      · simp only [Bool.not_eq_true] at hend
        have h3 := hnp.2.2.1 (by rw [heq]; exact hend)
        rw [heq] at h3
        have h3' : c' = c := h3
        rw [h3'] at hst
        exact absurd hst hne

set_option maxRecDepth 10000 in
/-- C4 witness: the theorem instantiated on freshly constructed controllers
(Stopped, position 0), after a manual `Stop()`, and at the natural
end-of-video stop triggered by a state query past the 10ms duration. -/
theorem c4_witness :
    ((voFresh4.Position 7).1.1 = 0 ∨ (voFresh4.Position 7).1.1 = voFresh4.duration) ∧
    (avFresh4.Position.1.1 = 0 ∨ avFresh4.Position.1.1 = avFresh4.duration) ∧
    ((voFresh4.Stop.2.Position 7).1.1 = 0) ∧
    (avFresh4.Stop.2.Position.1.1 = 0) ∧
    (((voFresh4.Play 0).2.StateQuery 20000).2.referencePosition =
      ((voFresh4.Play 0).2.StateQuery 20000).2.duration) ∧
    (avNat4.StateQuery.2.staticPosition = avNat4.StateQuery.2.duration) := by
  refine ⟨?_, ?_, ?_, ?_, ?_, ?_⟩
  · exact c4_theorem.1 voFresh4 7 (reachVO.init voFreshMedia 25 1 10000 0 rfl rfl) rfl
  · exact c4_theorem.2.1 avFresh4
      (reachAV.init (some 48000) v3demo a3six avNatMedia avFresh4 rfl rfl rfl rfl) rfl
  · exact c4_theorem.2.2.1 voFresh4 7 (reachVO.init voFreshMedia 25 1 10000 0 rfl rfl)
  · exact c4_theorem.2.2.2.1 avFresh4
      (reachAV.init (some 48000) v3demo a3six avNatMedia avFresh4 rfl rfl rfl rfl)
  · exact c4_theorem.2.2.2.2.1 (voFresh4.Play 0).2 20000
      (reachVO.play voFresh4 0 (reachVO.init voFreshMedia 25 1 10000 0 rfl rfl))
      (by decide) (by decide)
  · exact c4_theorem.2.2.2.2.2 avNat4
      (reachAV.advance _ 20000 (reachAV.read _ false 4 (reachAV.play _
        (reachAV.init (some 48000) v3demo a3six avNatMedia avFresh4 rfl rfl rfl rfl))))
      (by decide) (by decide)
